import Mathlib

/-!
# go-logger: a leveled logging facility

A shallow embedding of `logger.go` (package `logger`) and of the scenario of
`logger_test.go`.  Go values of type `int` are Lean integers, a Go panic is a
`Fault` carried in the result, and the operating system and the standard `log`
package are an explicit `World` that every effectful function threads through.
-/

namespace Logger

/-! ## Log level constants (`const ( LogFatal int = iota ... )`) -/

/-- Level constant `LogFatal` (iota = 0). -/
def LogFatal : Int := 0
/-- Level constant `LogError` (iota = 1). -/
def LogError : Int := 1
/-- Level constant `LogWarning` (iota = 2). -/
def LogWarning : Int := 2
/-- Level constant `LogInfo` (iota = 3). -/
def LogInfo : Int := 3
/-- Level constant `LogDebug` (iota = 4). -/
def LogDebug : Int := 4
/-- Level constant `LogDebug2` (iota = 5). -/
def LogDebug2 : Int := 5

/-- The package variable `levels`, the table of display names. -/
def levels : List String := ["FATAL", "ERROR", "WARNING", "INFO", "DEBUG", "DEBUG2"]

/-! ## Faults -/

/-- A Go panic: either an explicit `panic(msg)` of the package or the run-time
error raised by indexing a slice outside its bounds. -/
inductive Fault where
  | panic (msg : String)
  | indexOutOfRange (index : Int) (length : Nat)
  deriving DecidableEq, Repr

/-- Go slice indexing `xs[i]`: the element when `0 <= i < len(xs)`, the run-time
panic `index out of range` otherwise. -/
def sliceIndex (xs : List String) (i : Int) : Except Fault String :=
  if i < 0 then .error (.indexOutOfRange i xs.length)
  else
    match xs[i.toNat]? with
    | some s => .ok s
    | none => .error (.indexOutOfRange i xs.length)

/-! ## Pure functions of the package -/

/-- Go `FindLogLevel`: find log level from string. -/
def FindLogLevel (logLevel : String) : Int :=
  if logLevel = "DEBUG2" then LogDebug2
  else if logLevel = "DEBUG" then LogDebug
  else if logLevel = "INFO" then LogInfo
  else if logLevel = "WARNING" ∨ logLevel = "WARN" then LogWarning
  else if logLevel = "ERROR" then LogError
  else LogFatal

/-- Go `GetLogLevelString`: `return levels[lvl]`. -/
def GetLogLevelString (lvl : Int) : Except Fault String :=
  sliceIndex levels lvl

/-! ## Operands of `fmt.Sprint` / `fmt.Sprintln` -/

/-- A value passed as `interface{}` operand: a string, an integer, a boolean or
an `error` value (printed through its `Error()` text). -/
inductive Arg where
  | str (s : String)
  | int (i : Int)
  | bool (b : Bool)
  | err (msg : String)
  deriving DecidableEq, Repr

/-- The operand is of kind string (what `fmt.Sprint` tests before adding a
space). -/
def Arg.isString : Arg → Bool
  | .str _ => true
  | _ => false

/-- The default (`%v`) rendering of an operand. -/
def Arg.format : Arg → String
  | .str s => s
  | .int i => toString i
  | .bool b => if b then "true" else "false"
  | .err msg => msg

/-- The loop of `fmt.Sprintln`: a space before every operand but the first. -/
def sprintlnLoop : Bool → List Arg → String
  | _, [] => ""
  | first, a :: rest => (if first then "" else " ") ++ a.format ++ sprintlnLoop false rest

/-- Go `fmt.Sprintln`: operands in default format, always separated by a space,
with a newline appended. -/
def Sprintln (args : List Arg) : String :=
  sprintlnLoop true args ++ "\n"

/-- The loop of `fmt.Sprint`: a space between two operands when neither is a
string; `prev` is `none` before the first operand. -/
def sprintLoop : Option Bool → List Arg → String
  | _, [] => ""
  | prev, a :: rest =>
    (match prev with
      | some false => if a.isString then "" else " "
      | _ => "") ++ a.format ++ sprintLoop (some a.isString) rest

/-- Go `fmt.Sprint`. -/
def Sprint (args : List Arg) : String :=
  sprintLoop none args

/-! ## The world: files, standard output and the `log` package -/

/-- An `io.Writer` as this package obtains it: `os.Stdout`, or a file opened by
`os.OpenFile`, known by its descriptor and the path it was opened at. -/
inductive Handle where
  | stdout
  | file (fd : Nat) (path : String)
  deriving DecidableEq, Repr

/-- A `*log.Logger` value: its output, its line prefix and its flags. -/
structure GoLogger where
  out : Handle
  pfx : String
  flag : Nat
  deriving DecidableEq, Repr

/-- Flags `log.Lshortfile|log.LUTC|log.LstdFlags` (16 + 32 + 3). -/
def logFlags : Nat := 51

/-- Go `log.New(out, prefix, flag)`. -/
def GoLogger.New (out : Handle) (pfx : String) (flag : Nat) : GoLogger :=
  ⟨out, pfx, flag⟩

/-- Where a formatted message is handed to: a logger object of the caller, or
the shared standard logger of package `log`. -/
inductive Sink where
  | own (lg : GoLogger)
  | std
  deriving DecidableEq, Repr

/-- One call of `Output`: the sink, the call depth and the message. -/
structure OutputCall where
  sink : Sink
  calldepth : Int
  s : String
  deriving DecidableEq, Repr

/-- The environment of the package.
* `nextFd`: the descriptor the next successful open returns;
* `openErr`: the paths the operating system refuses to open, with the error text;
* `header`: the text (date, time, file:line) the `log` package puts before the
  message of the n-th `Output` call at a given call depth;
* `disk`: the content of the file at each path (`none`: no such file);
* `stdout`: what was written to standard output;
* `opens`: every path handed to `os.OpenFile`, oldest first;
* `calls`: every `Output` call, oldest first. -/
structure World where
  nextFd : Nat
  openErr : String → Option String
  header : Nat → Int → String
  disk : String → Option String
  stdout : String
  opens : List String
  calls : List OutputCall

/-- Go `os.OpenFile(name, os.O_APPEND|os.O_WRONLY|os.O_CREATE, 0666)`: the
attempt is recorded; on success the file exists afterwards (created empty if it
was absent) and a fresh descriptor is returned. -/
def OpenFile (name : String) (wd : World) : World × Except String Handle :=
  match wd.openErr name with
  | some e => ({ wd with opens := wd.opens ++ [name] }, .error e)
  | none =>
    ({ wd with
        opens := wd.opens ++ [name]
        nextFd := wd.nextFd + 1
        disk := fun p => if p = name then some ((wd.disk name).getD "") else wd.disk p },
      .ok (.file wd.nextFd name))

/-- Writing bytes to a handle: standard output grows, a file opened in append
mode grows at its end.  The write is taken to succeed. -/
def Handle.Write (h : Handle) (b : String) (wd : World) : World :=
  match h with
  | .stdout => { wd with stdout := wd.stdout ++ b }
  | .file _ path =>
    { wd with disk := fun p => if p = path then some ((wd.disk path).getD "" ++ b) else wd.disk p }

/-- The line `(*log.Logger).Output` builds: header, message, and a newline when
the message is empty or does not end in one. -/
def outputLine (hdr : String) (s : String) : String :=
  hdr ++ s ++ (if s.data.getLast? = some '\n' then "" else "\n")

/-- Go `(*log.Logger).Output(calldepth, s)`: the call is recorded and one line
is written to the output of the logger. -/
def GoLogger.Output (lg : GoLogger) (calldepth : Int) (s : String) (wd : World) : World :=
  lg.out.Write (outputLine (wd.header wd.calls.length calldepth) s)
    { wd with calls := wd.calls ++ [⟨.own lg, calldepth, s⟩] }

/-- Go `log.Output(calldepth, s)`: the message is handed to the shared standard
logger, whose destination is not owned by this package. -/
def stdOutput (calldepth : Int) (s : String) (wd : World) : World :=
  { wd with calls := wd.calls ++ [⟨.std, calldepth, s⟩] }

/-- A Go `int` result of an addition, wrapped to 64 bits two-complement. -/
def wrapInt (x : Int) : Int :=
  (x + 2 ^ 63) % 2 ^ 64 - 2 ^ 63

/-! ## Results of methods -/

/-- The outcome of a method with a pointer receiver: the world and the receiver
after the call, and either the returned value or the fault that ended it. -/
structure Run (σ : Type) (α : Type) where
  world : World
  self : σ
  ret : Except Fault α

/-- Sequencing of two calls on the same receiver: a fault ends the sequence. -/
def Run.andThen {σ α β : Type} (r : Run σ α) (k : σ → World → Run σ β) : Run σ β :=
  match r.ret with
  | .error e => ⟨r.world, r.self, .error e⟩
  | .ok _ => k r.self r.world

/-! ## The file logger (`logHandler`) -/

/-- Go struct `logHandler`. -/
structure logHandler where
  logLevel : Int
  w : GoLogger
  f : Handle
  filename : String
  deriving DecidableEq, Repr

/-- Go `newLog`: standard output for the empty name and for "stdout", the
opened file otherwise. -/
def newLog (file : String) (wd : World) : World × Except String Handle :=
  if file ≠ "" ∧ file ≠ "stdout" then
    match OpenFile file wd with
    | (wd1, .error err) => (wd1, .error err)
    | (wd1, .ok f) => (wd1, .ok f)
  else (wd, .ok .stdout)

/-- Go `NewLogger`: create new logger. -/
def NewLogger (logLevel : Int) (file : String) (wd : World) : World × Except Fault logHandler :=
  let logLevel := if logLevel > LogDebug then LogDebug2 else logLevel
  let logLevel := if logLevel < LogFatal then LogFatal else logLevel
  match newLog file wd with
  | (wd1, .error _) => (wd1, .error (.panic ("Cannot instantiate logger with file " ++ file)))
  | (wd1, .ok f) => (wd1, .ok ⟨logLevel, GoLogger.New f "" logFlags, f, file⟩)

/-- Go `(*logHandler).GetLogWriter`. -/
def logHandler.GetLogWriter (l : logHandler) : Handle :=
  l.f

/-- Go `(*logHandler).LogLevel`. -/
def logHandler.LogLevel (l : logHandler) : Int :=
  l.logLevel

/-- Go `(*logHandler).LogLevelString`: `return levels[l.logLevel]`. -/
def logHandler.LogLevelString (l : logHandler) : Except Fault String :=
  sliceIndex levels l.logLevel

/-- Go `(*logHandler).Output`: `return l.w.Output(calldepth+1, s)`; the
returned `error` is `none` for nil. -/
def logHandler.Output (l : logHandler) (calldepth : Int) (s : String) (wd : World) :
    Run logHandler (Option String) :=
  ⟨l.w.Output (wrapInt (calldepth + 1)) s wd, l, .ok none⟩

/-- Go `(*logHandler).Log`. -/
def logHandler.Log (l : logHandler) (logLevel depth : Int) (args : List Arg) (wd : World) :
    Run logHandler Unit :=
  if logLevel ≤ l.logLevel then
    match sliceIndex levels logLevel with
    | .error e => ⟨wd, l, .error e⟩
    | .ok name => ⟨l.w.Output depth (Sprintln (Arg.str name :: args)) wd, l, .ok ()⟩
  else ⟨wd, l, .ok ()⟩

/-- Go `(*logHandler).Fatal`: log and panic. -/
def logHandler.Fatal (l : logHandler) (args : List Arg) (wd : World) : Run logHandler Unit :=
  (l.Log LogFatal 3 args wd).andThen fun l1 wd1 =>
    ⟨wd1, l1, .error (.panic "Fatal error occured")⟩

/-- Go `(*logHandler).Error`. -/
def logHandler.Error (l : logHandler) (args : List Arg) (wd : World) : Run logHandler Unit :=
  l.Log LogError 3 args wd

/-- Go `(*logHandler).Warning`. -/
def logHandler.Warning (l : logHandler) (args : List Arg) (wd : World) : Run logHandler Unit :=
  l.Log LogWarning 3 args wd

/-- Go `(*logHandler).Info`. -/
def logHandler.Info (l : logHandler) (args : List Arg) (wd : World) : Run logHandler Unit :=
  l.Log LogInfo 3 args wd

/-- Go `(*logHandler).Debug`. -/
def logHandler.Debug (l : logHandler) (args : List Arg) (wd : World) : Run logHandler Unit :=
  l.Log LogDebug 3 args wd

/-- Go `(*logHandler).Debug2`. -/
def logHandler.Debug2 (l : logHandler) (args : List Arg) (wd : World) : Run logHandler Unit :=
  l.Log LogDebug2 3 args wd

/-- Go `(*logHandler).Rotate`: reopen file. -/
def logHandler.Rotate (l : logHandler) (wd : World) : Run logHandler Unit :=
  if l.filename ≠ "" ∧ l.filename ≠ "stdout" then
    match newLog l.filename wd with
    | (wd1, .ok f) =>
      let l1 : logHandler := { l with f := f }
      let l2 : logHandler := { l1 with w := GoLogger.New f "" logFlags }
      (l2.Output 0 "Rotated log file" wd1).andThen fun l3 wd2 => ⟨wd2, l3, .ok ()⟩
    | (wd1, .error err) =>
      (l.Output 0 (Sprint [.str "Could not rotate log file, error was:", .err err]) wd1).andThen
        fun l3 wd2 => ⟨wd2, l3, .ok ()⟩
  else ⟨wd, l, .ok ()⟩

/-! ## The wrapper of the standard logger (`logWrapper`) -/

/-- Go struct `logWrapper`. -/
structure logWrapper where
  logLevel : Int
  deriving DecidableEq, Repr

/-- Go `WrapLogger`: wraps standard log with interface. -/
def WrapLogger (logLevel : Int) : logWrapper :=
  let logLevel := if logLevel > LogDebug then LogDebug2 else logLevel
  let logLevel := if logLevel < LogFatal then LogFatal else logLevel
  ⟨logLevel⟩

/-- Go `(*logWrapper).GetLogWriter`: returns nil as there is no file known. -/
def logWrapper.GetLogWriter (_l : logWrapper) : Option Handle :=
  none

/-- Go `(*logWrapper).LogLevel`. -/
def logWrapper.LogLevel (l : logWrapper) : Int :=
  l.logLevel

/-- Go `(*logWrapper).LogLevelString`. -/
def logWrapper.LogLevelString (l : logWrapper) : Except Fault String :=
  sliceIndex levels l.logLevel

/-- Go `(*logWrapper).Output`: `return log.Output(calldepth+1, s)`. -/
def logWrapper.Output (l : logWrapper) (calldepth : Int) (s : String) (wd : World) :
    Run logWrapper (Option String) :=
  ⟨stdOutput (wrapInt (calldepth + 1)) s wd, l, .ok none⟩

/-- Go `(*logWrapper).Log`. -/
def logWrapper.Log (l : logWrapper) (logLevel depth : Int) (args : List Arg) (wd : World) :
    Run logWrapper Unit :=
  if logLevel ≤ l.logLevel then
    match sliceIndex levels logLevel with
    | .error e => ⟨wd, l, .error e⟩
    | .ok name => ⟨stdOutput depth (Sprintln (Arg.str name :: args)) wd, l, .ok ()⟩
  else ⟨wd, l, .ok ()⟩

/-- Go `(*logWrapper).Fatal`: log and panic. -/
def logWrapper.Fatal (l : logWrapper) (args : List Arg) (wd : World) : Run logWrapper Unit :=
  (l.Log LogFatal 3 args wd).andThen fun l1 wd1 =>
    ⟨wd1, l1, .error (.panic "Fatal error occured")⟩

/-- Go `(*logWrapper).Error`. -/
def logWrapper.Error (l : logWrapper) (args : List Arg) (wd : World) : Run logWrapper Unit :=
  l.Log LogError 3 args wd

/-- Go `(*logWrapper).Warning`. -/
def logWrapper.Warning (l : logWrapper) (args : List Arg) (wd : World) : Run logWrapper Unit :=
  l.Log LogWarning 3 args wd

/-- Go `(*logWrapper).Info`. -/
def logWrapper.Info (l : logWrapper) (args : List Arg) (wd : World) : Run logWrapper Unit :=
  l.Log LogInfo 3 args wd

/-- Go `(*logWrapper).Debug`. -/
def logWrapper.Debug (l : logWrapper) (args : List Arg) (wd : World) : Run logWrapper Unit :=
  l.Log LogDebug 3 args wd

/-- Go `(*logWrapper).Debug2`. -/
def logWrapper.Debug2 (l : logWrapper) (args : List Arg) (wd : World) : Run logWrapper Unit :=
  l.Log LogDebug2 3 args wd

/-- Go `(*logWrapper).Rotate`: `l.Info("Rotate called")`. -/
def logWrapper.Rotate (l : logWrapper) (wd : World) : Run logWrapper Unit :=
  l.Info [.str "Rotate called"] wd

/-! ## The scenario of `logger_test.go` -/

/-- Go `strings.Split(s, sep)` for a one-byte separator, on the characters of
the text: the pieces between the separators, oldest first (`1 + count` of them). -/
def splitChars (sep : Char) : List Char → List (List Char)
  | [] => [[]]
  | c :: cs =>
    if c = sep then [] :: splitChars sep cs
    else
      match splitChars sep cs with
      | [] => [[c]]
      | p :: ps => (c :: p) :: ps

/-- Go `strings.Split(content, "\n")` as the test uses it. -/
def Split (content : String) (sep : Char) : List String :=
  (splitChars sep content.data).map String.mk

/-- The five calls every filtering test of `logger_test.go` makes, in order:
`Debug2("TestD2")`, `Debug("TestD")`, `Info("TestI")`, `Warning("TestW")`,
`Error("TestE")`. -/
def fiveCalls (l : logHandler) (wd : World) : Run logHandler Unit :=
  (l.Debug2 [.str "TestD2"] wd).andThen fun l1 wd1 =>
  (l1.Debug [.str "TestD"] wd1).andThen fun l2 wd2 =>
  (l2.Info [.str "TestI"] wd2).andThen fun l3 wd3 =>
  (l3.Warning [.str "TestW"] wd3).andThen fun l4 wd4 =>
  l4.Error [.str "TestE"] wd4

/-- The body of a filtering test of `logger_test.go`: `NewLogger(t, tmpFile)`
followed by the five calls; the result is the logger, or the fault that ended
the test. -/
def filterScenario (t : Int) (file : String) (wd : World) : World × Except Fault logHandler :=
  match NewLogger t file wd with
  | (wd1, .error e) => (wd1, .error e)
  | (wd1, .ok l) =>
    match (fiveCalls l wd1).ret with
    | .error e => ((fiveCalls l wd1).world, .error e)
    | .ok _ => ((fiveCalls l wd1).world, .ok (fiveCalls l wd1).self)

/-- The five calls of the scenario as the test expects to read them back: level,
display name and message, in call order. -/
def expectedCalls : List (Int × String × String) :=
  [(LogDebug2, "DEBUG2", "TestD2"), (LogDebug, "DEBUG", "TestD"), (LogInfo, "INFO", "TestI"),
    (LogWarning, "WARNING", "TestW"), (LogError, "ERROR", "TestE")]

/-- The text of a file holding one line per given call, the n-th line of the
world being headed by `hdr n`: header, level name, a space, the message and a
newline. -/
def expectedContent (hdr : Nat → String) : Nat → List (Int × String × String) → String
  | _, [] => ""
  | n, (_, name, msg) :: rest =>
    hdr n ++ name ++ " " ++ msg ++ "\n" ++ expectedContent hdr (n + 1) rest

/-- Go `getLogs(f)` of the test: the content of the file, empty when it cannot
be read. -/
def getLogs (f : String) (wd : World) : String :=
  (wd.disk f).getD ""

/-- A sample world: no file exists, every path can be opened, descriptors start
at 3 and every header reads as a fixed date, time and call site. -/
def sampleWorld : World where
  nextFd := 3
  openErr := fun _ => none
  header := fun _ _ => "2024/01/01 10:00:00 main.go:10: "
  disk := fun _ => none
  stdout := ""
  opens := []
  calls := []

/-- A sample world in which the path "app.log" cannot be opened. -/
def lockedWorld : World :=
  { sampleWorld with
    openErr := fun p => if p = "app.log" then some "open app.log: permission denied" else none }

/-- A sample world in which the test has just created the empty file "app.log". -/
def freshWorld : World :=
  { sampleWorld with disk := fun p => if p = "app.log" then some "" else none }

/-! ## Sequences of calls on one logger -/

/-- One call a client makes through the `Logger` interface. -/
inductive Op where
  | log (logLevel depth : Int) (args : List Arg)
  | fatal (args : List Arg)
  | error (args : List Arg)
  | warning (args : List Arg)
  | info (args : List Arg)
  | debug (args : List Arg)
  | debug2 (args : List Arg)
  | output (calldepth : Int) (s : String)
  | rotate
  | levelQuery
  | levelStringQuery
  | writerQuery
  deriving DecidableEq, Repr

/-- The call made on a `logHandler`; the value a getter or `Output` returns is
dropped, a fault is kept. -/
def logHandler.apply (l : logHandler) (op : Op) (wd : World) : Run logHandler Unit :=
  match op with
  | .log r depth args => l.Log r depth args wd
  | .fatal args => l.Fatal args wd
  | .error args => l.Error args wd
  | .warning args => l.Warning args wd
  | .info args => l.Info args wd
  | .debug args => l.Debug args wd
  | .debug2 args => l.Debug2 args wd
  | .output calldepth s => (l.Output calldepth s wd).andThen fun l1 wd1 => ⟨wd1, l1, .ok ()⟩
  | .rotate => l.Rotate wd
  | .levelQuery => ⟨wd, l, .ok ()⟩
  | .levelStringQuery =>
    match l.LogLevelString with
    | .ok _ => ⟨wd, l, .ok ()⟩
    | .error e => ⟨wd, l, .error e⟩
  | .writerQuery => ⟨wd, l, .ok ()⟩

/-- The call made on a `logWrapper`. -/
def logWrapper.apply (l : logWrapper) (op : Op) (wd : World) : Run logWrapper Unit :=
  match op with
  | .log r depth args => l.Log r depth args wd
  | .fatal args => l.Fatal args wd
  | .error args => l.Error args wd
  | .warning args => l.Warning args wd
  | .info args => l.Info args wd
  | .debug args => l.Debug args wd
  | .debug2 args => l.Debug2 args wd
  | .output calldepth s => (l.Output calldepth s wd).andThen fun l1 wd1 => ⟨wd1, l1, .ok ()⟩
  | .rotate => l.Rotate wd
  | .levelQuery => ⟨wd, l, .ok ()⟩
  | .levelStringQuery =>
    match l.LogLevelString with
    | .ok _ => ⟨wd, l, .ok ()⟩
    | .error e => ⟨wd, l, .error e⟩
  | .writerQuery => ⟨wd, l, .ok ()⟩

/-- The outcome of a sequence of calls: the world and the receiver at the end
and the result of every call, oldest first. -/
structure Trace (σ : Type) where
  world : World
  self : σ
  results : List (Except Fault Unit)

/-- A client making the calls one after the other on a `logHandler`, each in the
world the previous one left; a call that panics is recovered from by the client
(as the test does) and the next call is made. -/
def logHandler.runOps (l : logHandler) (wd : World) : List Op → Trace logHandler
  | [] => ⟨wd, l, []⟩
  | op :: ops =>
    let t := logHandler.runOps (l.apply op wd).self (l.apply op wd).world ops
    ⟨t.world, t.self, (l.apply op wd).ret :: t.results⟩

/-- A client making the calls one after the other on a `logWrapper`. -/
def logWrapper.runOps (l : logWrapper) (wd : World) : List Op → Trace logWrapper
  | [] => ⟨wd, l, []⟩
  | op :: ops =>
    let t := logWrapper.runOps (l.apply op wd).self (l.apply op wd).world ops
    ⟨t.world, t.self, (l.apply op wd).ret :: t.results⟩

/-- The `logHandler` after a sequence of calls, each made in a world of its own
(the environment may change freely between two calls). -/
def logHandler.afterOps (l : logHandler) : List (Op × World) → logHandler
  | [] => l
  | (op, wd) :: rest => logHandler.afterOps (l.apply op wd).self rest

/-- The `logWrapper` after a sequence of calls, each made in a world of its own. -/
def logWrapper.afterOps (l : logWrapper) : List (Op × World) → logWrapper
  | [] => l
  | (op, wd) :: rest => logWrapper.afterOps (l.apply op wd).self rest

/-- What a logging call passes to `Log`: the level, the call depth and the
arguments (`Fatal` .. `Debug2` pass their own level and depth 3); `none` for a
call that is no logging call. -/
def Op.request : Op → Option (Int × Int × List Arg)
  | .log r depth args => some (r, depth, args)
  | .fatal args => some (LogFatal, 3, args)
  | .error args => some (LogError, 3, args)
  | .warning args => some (LogWarning, 3, args)
  | .info args => some (LogInfo, 3, args)
  | .debug args => some (LogDebug, 3, args)
  | .debug2 args => some (LogDebug2, 3, args)
  | _ => none

/-- The call is `Log` or one of the six level methods. -/
def Op.isLogCall (op : Op) : Bool :=
  op.request.isSome

/-- The call is a logging call whose level is one of FATAL..DEBUG2. -/
def Op.isLeveled (op : Op) : Bool :=
  match op.request with
  | some (r, _, _) => decide (LogFatal ≤ r ∧ r ≤ LogDebug2)
  | none => false

/-- The (call depth, message) pairs a logging call hands to the sink of a logger
at threshold `t`: one pair when its level is at most `t` and names a level,
none otherwise. -/
def Op.handedAt (t : Int) (op : Op) : List (Int × String) :=
  match op.request with
  | some (r, depth, args) =>
    if r ≤ t then
      match sliceIndex levels r with
      | .ok name => [(depth, Sprintln (.str name :: args))]
      | .error _ => []
    else []
  | none => []

/-- The (call depth, message) pairs of the `Output` calls the world recorded
after its first `n` ones. -/
def World.handedSince (wd : World) (n : Nat) : List (Int × String) :=
  (wd.calls.drop n).map fun c => (c.calldepth, c.s)

/-- The display name of a level followed by the arguments, joined by single
spaces and ended by a newline: the line format as the specification words it. -/
def specLine (name : String) (args : List String) : String :=
  String.intercalate " " (name :: args) ++ "\n"

/-- The level a logging call requests; `none` for a call that is no logging
call. -/
def Op.level (op : Op) : Option Int :=
  op.request.map fun q => q.1

/-- The (call depth, message) pairs a sequence of calls hands to the sink of a
logger at threshold `t`, in call order. -/
def handedBy (t : Int) : List Op → List (Int × String)
  | [] => []
  | op :: ops => op.handedAt t ++ handedBy t ops

/-! ## Auxiliary facts -/

theorem sliceIndex_levels_ok (r : Int) (h0 : 0 ≤ r) (h5 : r ≤ 5) :
    ∃ name, sliceIndex levels r = .ok name ∧ name ∈ levels := by
  have h : r = 0 ∨ r = 1 ∨ r = 2 ∨ r = 3 ∨ r = 4 ∨ r = 5 := by omega
  rcases h with h | h | h | h | h | h <;> subst h <;> simp [sliceIndex, levels]

theorem sliceIndex_levels_error (r : Int) (h : r < 0 ∨ 5 < r) :
    sliceIndex levels r = .error (.indexOutOfRange r 6) := by
  unfold sliceIndex
  by_cases hneg : r < 0
  · simp [hneg, levels]
  · have h6 : 6 ≤ r.toNat := by omega
    have hnone : levels[r.toNat]? = none := by
      apply List.getElem?_eq_none
      simpa [levels] using h6
    rw [if_neg hneg, hnone]
    rfl

theorem clamp_eq (logLevel : Int) :
    (if (if logLevel > LogDebug then LogDebug2 else logLevel) < LogFatal then LogFatal
      else (if logLevel > LogDebug then LogDebug2 else logLevel))
      = max LogFatal (min LogDebug2 logLevel) := by
  simp only [LogDebug, LogDebug2, LogFatal]
  split_ifs <;> omega

theorem NewLogger_ok (logLevel : Int) (file : String) (wd : World) (l : logHandler)
    (hl : (NewLogger logLevel file wd).2 = .ok l) :
    l.logLevel = max LogFatal (min LogDebug2 logLevel) ∧ l.filename = file ∧
      l.w = GoLogger.New l.f "" logFlags ∧ (newLog file wd).2 = .ok l.f := by
  unfold NewLogger at hl
  rcases hnl : newLog file wd with ⟨wd1, _ | f⟩
  · simp [hnl] at hl
  · simp only [hnl] at hl
    injection hl with hl
    subst hl
    exact ⟨clamp_eq logLevel, rfl, rfl, rfl⟩

/-! ## Level filtering -/

/-- C1: on a logger built by `NewLogger`, `Log(r, depth, args)` with `r` in
FATAL..DEBUG2 hands exactly one message to the formatting writer bound to the
destination when `r` is at most the threshold, and otherwise writes nothing and
leaves the world and the logger as they were. -/
theorem log_admits_iff_within_threshold (logLevel : Int) (file : String) (wd0 : World)
    (l : logHandler) (hl : (NewLogger logLevel file wd0).2 = .ok l)
    (r depth : Int) (args : List Arg) (wd : World)
    (hlo : LogFatal ≤ r) (hhi : r ≤ LogDebug2) :
    (r ≤ l.LogLevel →
      ∃ name, GetLogLevelString r = .ok name ∧
        l.Log r depth args wd
          = ⟨l.w.Output depth (Sprintln (.str name :: args)) wd, l, .ok ()⟩ ∧
        (l.Log r depth args wd).world.calls
          = wd.calls ++ [⟨.own l.w, depth, Sprintln (.str name :: args)⟩] ∧
        l.w.out = l.GetLogWriter) ∧
    (l.LogLevel < r → l.Log r depth args wd = ⟨wd, l, .ok ()⟩) := by
  obtain ⟨-, -, hw, -⟩ := NewLogger_ok logLevel file wd0 l hl
  obtain ⟨name, hname, -⟩ := sliceIndex_levels_ok r hlo hhi
  constructor
  · intro hle
    have hle2 : r ≤ l.logLevel := hle
    refine ⟨name, hname, ?_, ?_, ?_⟩
    · simp [logHandler.Log, hle2, hname]
    · simp only [logHandler.Log, hle2, hname, if_true]
      cases hf : l.w.out <;> simp [GoLogger.Output, Handle.Write, hf]
    · rw [hw]; rfl
  · intro hlt
    have hnle : ¬ r ≤ l.logLevel := not_le.mpr hlt
    simp [logHandler.Log, hnle]

/-- Witness for C1: a logger at threshold WARNING writing to "app.log" admits an
ERROR message and drops an INFO message. -/
theorem log_admits_iff_within_threshold_witness :
    (NewLogger 2 "app.log" sampleWorld).2
        = .ok ⟨2, ⟨.file 3 "app.log", "", 51⟩, .file 3 "app.log", "app.log"⟩ ∧
      (∃ name, GetLogLevelString 1 = .ok name ∧
          logHandler.Log ⟨2, ⟨.file 3 "app.log", "", 51⟩, .file 3 "app.log", "app.log"⟩ 1 3
              [.str "disk full"] sampleWorld
            = ⟨GoLogger.Output ⟨.file 3 "app.log", "", 51⟩ 3
                (Sprintln (.str name :: [.str "disk full"])) sampleWorld,
               ⟨2, ⟨.file 3 "app.log", "", 51⟩, .file 3 "app.log", "app.log"⟩, .ok ()⟩ ∧
          (logHandler.Log ⟨2, ⟨.file 3 "app.log", "", 51⟩, .file 3 "app.log", "app.log"⟩ 1 3
              [.str "disk full"] sampleWorld).world.calls
            = sampleWorld.calls ++
                [⟨.own ⟨.file 3 "app.log", "", 51⟩, 3, Sprintln (.str name :: [.str "disk full"])⟩] ∧
          (⟨.file 3 "app.log", "", 51⟩ : GoLogger).out
            = logHandler.GetLogWriter
                ⟨2, ⟨.file 3 "app.log", "", 51⟩, .file 3 "app.log", "app.log"⟩) :=
  ⟨rfl,
   (log_admits_iff_within_threshold 2 "app.log" sampleWorld
      ⟨2, ⟨.file 3 "app.log", "", 51⟩, .file 3 "app.log", "app.log"⟩ rfl
      1 3 [.str "disk full"] sampleWorld (by decide) (by decide)).1 (by decide)⟩

theorem Sprintln_cons_str (name : String) (args : List Arg) :
    Sprintln (.str name :: args) = name ++ sprintlnLoop false args ++ "\n" := by
  simp [Sprintln, sprintlnLoop, Arg.format]

/-! ## Fatal -/

/-- C2: on a logger of either variant, at every threshold and for every argument
list, `Fatal(args)` hands exactly one message, "FATAL" followed by the
arguments, to the sink at call depth 3 and then ends in the panic
"Fatal error occured"; it never returns normally. -/
theorem fatal_writes_line_then_panics (logLevel : Int) (file : String) (wd0 : World)
    (l : logHandler) (hl : (NewLogger logLevel file wd0).2 = .ok l)
    (args : List Arg) (wd : World) :
    (l.Fatal args wd
        = ⟨l.w.Output 3 (Sprintln (.str "FATAL" :: args)) wd, l,
            .error (.panic "Fatal error occured")⟩ ∧
      (l.Fatal args wd).world.calls
        = wd.calls ++ [⟨.own l.w, 3, Sprintln (.str "FATAL" :: args)⟩]) ∧
    ((WrapLogger logLevel).Fatal args wd
        = ⟨stdOutput 3 (Sprintln (.str "FATAL" :: args)) wd, WrapLogger logLevel,
            .error (.panic "Fatal error occured")⟩ ∧
      ((WrapLogger logLevel).Fatal args wd).world.calls
        = wd.calls ++ [⟨.std, 3, Sprintln (.str "FATAL" :: args)⟩]) ∧
    Sprintln (.str "FATAL" :: args) = "FATAL" ++ sprintlnLoop false args ++ "\n" := by
  obtain ⟨hlev, -, -, -⟩ := NewLogger_ok logLevel file wd0 l hl
  have h0 : LogFatal ≤ l.logLevel := by rw [hlev]; exact le_max_left _ _
  have hname : sliceIndex levels LogFatal = .ok "FATAL" := rfl
  have hw0 : LogFatal ≤ (WrapLogger logLevel).logLevel := by
    have : (WrapLogger logLevel).logLevel = max LogFatal (min LogDebug2 logLevel) :=
      clamp_eq logLevel
    rw [this]; exact le_max_left _ _
  have e1 : l.Fatal args wd
      = ⟨l.w.Output 3 (Sprintln (.str "FATAL" :: args)) wd, l,
          .error (.panic "Fatal error occured")⟩ := by
    simp [logHandler.Fatal, logHandler.Log, h0, hname, Run.andThen]
  have e2 : (WrapLogger logLevel).Fatal args wd
      = ⟨stdOutput 3 (Sprintln (.str "FATAL" :: args)) wd, WrapLogger logLevel,
          .error (.panic "Fatal error occured")⟩ := by
    simp [logWrapper.Fatal, logWrapper.Log, hw0, hname, Run.andThen]
  refine ⟨⟨e1, ?_⟩, ⟨e2, ?_⟩, Sprintln_cons_str _ _⟩
  · rw [e1]
    cases hf : l.w.out <;> simp [GoLogger.Output, Handle.Write, hf]
  · rw [e2]; rfl

/-- Witness for C2: a logger at threshold FATAL on "app.log" writes the line of
`Fatal("TestF")` and panics. -/
theorem fatal_writes_line_then_panics_witness :
    (NewLogger 0 "app.log" sampleWorld).2
        = .ok ⟨0, ⟨.file 3 "app.log", "", 51⟩, .file 3 "app.log", "app.log"⟩ ∧
      (logHandler.Fatal ⟨0, ⟨.file 3 "app.log", "", 51⟩, .file 3 "app.log", "app.log"⟩
          [.str "TestF"] sampleWorld).ret = .error (.panic "Fatal error occured") ∧
      (logHandler.Fatal ⟨0, ⟨.file 3 "app.log", "", 51⟩, .file 3 "app.log", "app.log"⟩
          [.str "TestF"] sampleWorld).world.calls
        = [⟨.own ⟨.file 3 "app.log", "", 51⟩, 3, "FATAL TestF\n"⟩] :=
  ⟨rfl,
   congrArg Run.ret (fatal_writes_line_then_panics 0 "app.log" sampleWorld
      ⟨0, ⟨.file 3 "app.log", "", 51⟩, .file 3 "app.log", "app.log"⟩ rfl
      [.str "TestF"] sampleWorld).1.1,
   (fatal_writes_line_then_panics 0 "app.log" sampleWorld
      ⟨0, ⟨.file 3 "app.log", "", 51⟩, .file 3 "app.log", "app.log"⟩ rfl
      [.str "TestF"] sampleWorld).1.2.trans (by decide)⟩

/-! ## Construction -/

/-- C4: for every integer `logLevel` and every destination token, the logger
`NewLogger` returns (it returns one whenever the token is empty, "stdout" or a
path that opens) and the logger `WrapLogger` returns report
`LogLevel() = max(FATAL, min(DEBUG2, logLevel))`; a level within FATAL..DEBUG2
is kept as it is, a lower one becomes FATAL and a higher one DEBUG2. -/
theorem threshold_is_clamped (logLevel : Int) (file : String) (wd : World) :
    (∀ l, (NewLogger logLevel file wd).2 = .ok l →
      l.LogLevel = max LogFatal (min LogDebug2 logLevel)) ∧
    (file = "" ∨ file = "stdout" ∨ wd.openErr file = none →
      ∃ l, (NewLogger logLevel file wd).2 = .ok l) ∧
    (WrapLogger logLevel).LogLevel = max LogFatal (min LogDebug2 logLevel) ∧
    (LogFatal ≤ logLevel → logLevel ≤ LogDebug2 →
      max LogFatal (min LogDebug2 logLevel) = logLevel) ∧
    (logLevel < LogFatal → max LogFatal (min LogDebug2 logLevel) = LogFatal) ∧
    (LogDebug2 < logLevel → max LogFatal (min LogDebug2 logLevel) = LogDebug2) := by
  refine ⟨?_, ?_, clamp_eq logLevel, ?_, ?_, ?_⟩
  · intro l hl
    exact (NewLogger_ok logLevel file wd l hl).1
  · intro h
    by_cases hf : file ≠ "" ∧ file ≠ "stdout"
    · have ho : wd.openErr file = none := by
        rcases h with h | h | h
        · exact absurd h hf.1
        · exact absurd h hf.2
        · exact h
      simp [NewLogger, newLog, hf, OpenFile, ho]
    · simp [NewLogger, newLog, hf]
  · intro h0 h5
    simp only [LogFatal, LogDebug2] at *
    omega
  · intro h0
    simp only [LogFatal, LogDebug2] at *
    omega
  · intro h5
    simp only [LogFatal, LogDebug2] at *
    omega

/-- Witness for C4: `NewLogger(9, "app.log")` and `NewLogger(-4, "stdout")`
report DEBUG2 and FATAL. -/
theorem threshold_is_clamped_witness :
    (NewLogger 9 "app.log" sampleWorld).2
        = .ok ⟨5, ⟨.file 3 "app.log", "", 51⟩, .file 3 "app.log", "app.log"⟩ ∧
      logHandler.LogLevel ⟨5, ⟨.file 3 "app.log", "", 51⟩, .file 3 "app.log", "app.log"⟩
        = max LogFatal (min LogDebug2 9) ∧
      (∃ l, (NewLogger (-4) "stdout" lockedWorld).2 = .ok l) ∧
      max LogFatal (min LogDebug2 3) = 3 ∧
      max LogFatal (min LogDebug2 (-4)) = LogFatal ∧
      max LogFatal (min LogDebug2 9) = LogDebug2 :=
  ⟨rfl,
   (threshold_is_clamped 9 "app.log" sampleWorld).1 _ rfl,
   (threshold_is_clamped (-4) "stdout" lockedWorld).2.1 (Or.inr (Or.inl rfl)),
   (threshold_is_clamped 3 "" sampleWorld).2.2.2.1 (by decide) (by decide),
   (threshold_is_clamped (-4) "" sampleWorld).2.2.2.2.1 (by decide),
   (threshold_is_clamped 9 "" sampleWorld).2.2.2.2.2 (by decide)⟩

/-! ## Level names -/

/-- C5: `FindLogLevel` and `GetLogLevelString` are inverse to each other on the
six levels and their six names, and `GetLogLevelString` lists the names in
severity order, FATAL = 0 up to DEBUG2 = 5. -/
theorem find_and_name_are_inverse :
    (∀ n, n ∈ ["FATAL", "ERROR", "WARNING", "INFO", "DEBUG", "DEBUG2"] →
      GetLogLevelString (FindLogLevel n) = .ok n) ∧
    (∀ l : Int, LogFatal ≤ l → l ≤ LogDebug2 →
      ∃ n, GetLogLevelString l = .ok n ∧ FindLogLevel n = l) ∧
    GetLogLevelString LogFatal = .ok "FATAL" ∧
    GetLogLevelString LogError = .ok "ERROR" ∧
    GetLogLevelString LogWarning = .ok "WARNING" ∧
    GetLogLevelString LogInfo = .ok "INFO" ∧
    GetLogLevelString LogDebug = .ok "DEBUG" ∧
    GetLogLevelString LogDebug2 = .ok "DEBUG2" ∧
    LogFatal = 0 ∧ LogError = 1 ∧ LogWarning = 2 ∧ LogInfo = 3 ∧ LogDebug = 4 ∧
    LogDebug2 = 5 := by
  refine ⟨?_, ?_, rfl, rfl, rfl, rfl, rfl, rfl, rfl, rfl, rfl, rfl, rfl, rfl⟩
  · intro n hn
    simp only [List.mem_cons, List.mem_singleton, List.not_mem_nil, or_false] at hn
    rcases hn with h | h | h | h | h | h <;> subst h <;> rfl
  · intro l h0 h5
    simp only [LogFatal, LogDebug2] at h0 h5
    have h : l = 0 ∨ l = 1 ∨ l = 2 ∨ l = 3 ∨ l = 4 ∨ l = 5 := by omega
    rcases h with h | h | h | h | h | h <;> subst h
    · exact ⟨"FATAL", rfl, rfl⟩
    · exact ⟨"ERROR", rfl, rfl⟩
    · exact ⟨"WARNING", rfl, rfl⟩
    · exact ⟨"INFO", rfl, rfl⟩
    · exact ⟨"DEBUG", rfl, rfl⟩
    · exact ⟨"DEBUG2", rfl, rfl⟩

/-- Witness for C5: the name "WARNING" and the level DEBUG round-trip. -/
theorem find_and_name_are_inverse_witness :
    GetLogLevelString (FindLogLevel "WARNING") = .ok "WARNING" ∧
      (∃ n, GetLogLevelString 4 = .ok n ∧ FindLogLevel n = 4) :=
  ⟨find_and_name_are_inverse.1 "WARNING" (by decide),
   find_and_name_are_inverse.2.1 4 (by decide) (by decide)⟩

/-- C6: `FindLogLevel` is a total, case-sensitive function: it returns DEBUG2
exactly for "DEBUG2", DEBUG exactly for "DEBUG", INFO exactly for "INFO",
WARNING exactly for "WARNING" and "WARN", ERROR exactly for "ERROR", and FATAL
for every other string, among them "FATAL", "bogus", the empty string and
"debug". -/
theorem find_log_level_total_case_sensitive (s : String) :
    (FindLogLevel s = LogDebug2 ↔ s = "DEBUG2") ∧
    (FindLogLevel s = LogDebug ↔ s = "DEBUG") ∧
    (FindLogLevel s = LogInfo ↔ s = "INFO") ∧
    (FindLogLevel s = LogWarning ↔ (s = "WARNING" ∨ s = "WARN")) ∧
    (FindLogLevel s = LogError ↔ s = "ERROR") ∧
    (FindLogLevel s = LogFatal ↔
      (s ≠ "DEBUG2" ∧ s ≠ "DEBUG" ∧ s ≠ "INFO" ∧ s ≠ "WARNING" ∧ s ≠ "WARN" ∧ s ≠ "ERROR")) ∧
    (LogFatal ≤ FindLogLevel s ∧ FindLogLevel s ≤ LogDebug2) ∧
    FindLogLevel "FATAL" = LogFatal ∧ FindLogLevel "bogus" = LogFatal ∧
    FindLogLevel "" = LogFatal ∧ FindLogLevel "debug" = LogFatal ∧
    FindLogLevel "Warning" = LogFatal := by
  refine ⟨?_, ?_, ?_, ?_, ?_, ?_, ?_, rfl, rfl, rfl, rfl, rfl⟩ <;>
    by_cases h1 : s = "DEBUG2" <;> by_cases h2 : s = "DEBUG" <;>
    by_cases h3 : s = "INFO" <;> by_cases h4 : s = "WARNING" <;>
    by_cases h5 : s = "WARN" <;> by_cases h6 : s = "ERROR" <;>
    simp_all [FindLogLevel, LogFatal, LogError, LogWarning, LogInfo, LogDebug, LogDebug2]

/-- C7: `GetLogLevelString` fails fast outside the table: for every integer
below FATAL or above DEBUG2 the call ends in the index-out-of-range fault and
yields no name, and for every level in FATAL..DEBUG2 it returns a name of the
table. -/
theorem get_log_level_string_out_of_range (lvl : Int) :
    (lvl < LogFatal ∨ LogDebug2 < lvl →
      GetLogLevelString lvl = .error (.indexOutOfRange lvl levels.length) ∧
      ∀ name, GetLogLevelString lvl ≠ .ok name) ∧
    (LogFatal ≤ lvl → lvl ≤ LogDebug2 →
      ∃ name, GetLogLevelString lvl = .ok name ∧ name ∈ levels) := by
  constructor
  · intro h
    have he : GetLogLevelString lvl = .error (.indexOutOfRange lvl levels.length) :=
      sliceIndex_levels_error lvl h
    refine ⟨he, ?_⟩
    intro name hn
    rw [he] at hn
    cases hn
  · intro h0 h5
    exact sliceIndex_levels_ok lvl h0 h5

/-- Witness for C7: the lookups of 6 and of -1 fault, the lookup of 3 gives a
name. -/
theorem get_log_level_string_out_of_range_witness :
    GetLogLevelString 6 = .error (.indexOutOfRange 6 6) ∧
      GetLogLevelString (-1) = .error (.indexOutOfRange (-1) 6) ∧
      (∃ name, GetLogLevelString 3 = .ok name ∧ name ∈ levels) :=
  ⟨((get_log_level_string_out_of_range 6).1 (Or.inr (by decide))).1,
   ((get_log_level_string_out_of_range (-1)).1 (Or.inl (by decide))).1,
   (get_log_level_string_out_of_range 3).2 (by decide) (by decide)⟩

/-! ## Rotation -/

theorem GoLogger_Output_calls (lg : GoLogger) (depth : Int) (s : String) (wd : World) :
    (lg.Output depth s wd).calls = wd.calls ++ [⟨.own lg, depth, s⟩] ∧
      (lg.Output depth s wd).opens = wd.opens ∧
      (lg.Output depth s wd).nextFd = wd.nextFd := by
  cases hf : lg.out <;> simp [GoLogger.Output, Handle.Write, hf]

theorem wrapInt_one : wrapInt (0 + 1) = 1 := by decide

/-- C8: on a logger built by `NewLogger` on a real path, in any world later than
its construction (descriptors handed out since), when the path reopens,
`Rotate` returns normally having replaced the destination handle and the
formatting writer by the newly opened handle (threshold and filename kept),
made one open attempt, handed exactly one message, "Rotated log file", to the
new writer and none to the old one, appended that line to the file, and every
message admitted or written raw afterwards goes to the new writer. -/
theorem rotate_success_swaps_handle (logLevel : Int) (file : String) (wd0 : World)
    (l : logHandler) (hl : (NewLogger logLevel file wd0).2 = .ok l)
    (hfile : file ≠ "" ∧ file ≠ "stdout") (wd : World)
    (hlater : wd0.nextFd < wd.nextFd) (hopen : wd.openErr file = none) :
    (l.Rotate wd).ret = .ok () ∧
    (l.Rotate wd).self
      = ⟨l.logLevel, GoLogger.New (.file wd.nextFd file) "" logFlags, .file wd.nextFd file,
          l.filename⟩ ∧
    (l.Rotate wd).self.GetLogWriter = .file wd.nextFd file ∧
    (l.Rotate wd).self.GetLogWriter ≠ l.GetLogWriter ∧
    (l.Rotate wd).self.w ≠ l.w ∧
    (l.Rotate wd).world.opens = wd.opens ++ [file] ∧
    (l.Rotate wd).world.calls
      = wd.calls ++ [⟨.own (l.Rotate wd).self.w, 1, "Rotated log file"⟩] ∧
    (l.Rotate wd).world.calls.filter (fun c => decide (c.sink = .own l.w))
      = wd.calls.filter (fun c => decide (c.sink = .own l.w)) ∧
    (l.Rotate wd).world.disk file
      = some ((wd.disk file).getD "" ++
          outputLine (wd.header wd.calls.length 1) "Rotated log file") ∧
    (∀ (r depth : Int) (args : List Arg) (wd2 : World),
      LogFatal ≤ r → r ≤ (l.Rotate wd).self.LogLevel →
      ∃ name, GetLogLevelString r = .ok name ∧
        ((l.Rotate wd).self.Log r depth args wd2).world.calls
          = wd2.calls ++
              [⟨.own (GoLogger.New (.file wd.nextFd file) "" logFlags), depth,
                Sprintln (.str name :: args)⟩]) ∧
    (∀ (depth : Int) (s : String) (wd2 : World),
      ((l.Rotate wd).self.Output depth s wd2).world.calls
        = wd2.calls ++
            [⟨.own (GoLogger.New (.file wd.nextFd file) "" logFlags), wrapInt (depth + 1), s⟩]) := by
  obtain ⟨hlev, hname, hw, hnl⟩ := NewLogger_ok logLevel file wd0 l hl
  have hf : l.f = .file wd0.nextFd file := by
    have h2 : (newLog file wd0).2 = .ok l.f := hnl
    unfold newLog OpenFile at h2
    rw [if_pos hfile] at h2
    cases ho : wd0.openErr file with
    | some e => simp [ho] at h2
    | none =>
      simp only [ho] at h2
      injection h2 with h2
      exact h2.symm
  have hne : wd.nextFd ≠ wd0.nextFd := Nat.ne_of_gt hlater
  have hfile2 : l.filename ≠ "" ∧ l.filename ≠ "stdout" := by rw [hname]; exact hfile
  have hrot : l.Rotate wd
      = ⟨GoLogger.Output (GoLogger.New (.file wd.nextFd file) "" logFlags) 1 "Rotated log file"
            { wd with
              opens := wd.opens ++ [file]
              nextFd := wd.nextFd + 1
              disk := fun p => if p = file then some ((wd.disk file).getD "") else wd.disk p },
          ⟨l.logLevel, GoLogger.New (.file wd.nextFd file) "" logFlags, .file wd.nextFd file,
            l.filename⟩, .ok ()⟩ := by
    unfold logHandler.Rotate
    rw [if_pos hfile2, hname]
    simp only [newLog, if_pos hfile, OpenFile, hopen, logHandler.Output, Run.andThen,
      wrapInt_one]
  have hlev5 : l.logLevel ≤ LogDebug2 := by
    rw [hlev]
    simp only [LogFatal, LogDebug2]
    omega
  rw [hrot]
  refine ⟨rfl, rfl, rfl, ?_, ?_, ?_, ?_, ?_, ?_, ?_, ?_⟩
  · simp [logHandler.GetLogWriter, hf, hne]
  · simp [hw, hf, GoLogger.New, hne]
  · simp [GoLogger.Output, Handle.Write, GoLogger.New]
  · simp [GoLogger.Output, Handle.Write, GoLogger.New]
  · simp [GoLogger.Output, Handle.Write, GoLogger.New, List.filter_append, hw, hf, hne]
  · simp [GoLogger.Output, Handle.Write, GoLogger.New]
  · intro r depth args wd2 h0 hr
    have hr5 : r ≤ LogDebug2 := le_trans hr hlev5
    obtain ⟨name, hn, -⟩ := sliceIndex_levels_ok r h0 hr5
    have hr2 : r ≤ l.logLevel := hr
    refine ⟨name, hn, ?_⟩
    simp only [logHandler.Log, hr2, if_true, hn]
    exact (GoLogger_Output_calls _ depth _ wd2).1
  · intro depth s wd2
    simp only [logHandler.Output]
    exact (GoLogger_Output_calls _ _ s wd2).1

/-- Witness for C8: the logger built on "app.log" in the sample world is rotated
in the world its construction left behind. -/
theorem rotate_success_swaps_handle_witness :
    (NewLogger 2 "app.log" sampleWorld).2
        = .ok ⟨2, ⟨.file 3 "app.log", "", 51⟩, .file 3 "app.log", "app.log"⟩ ∧
      ("app.log" ≠ "" ∧ "app.log" ≠ "stdout") ∧
      sampleWorld.nextFd < (NewLogger 2 "app.log" sampleWorld).1.nextFd ∧
      (NewLogger 2 "app.log" sampleWorld).1.openErr "app.log" = none ∧
      (logHandler.Rotate ⟨2, ⟨.file 3 "app.log", "", 51⟩, .file 3 "app.log", "app.log"⟩
          (NewLogger 2 "app.log" sampleWorld).1).self
        = ⟨2, ⟨.file 4 "app.log", "", 51⟩, .file 4 "app.log", "app.log"⟩ ∧
      (logHandler.Rotate ⟨2, ⟨.file 3 "app.log", "", 51⟩, .file 3 "app.log", "app.log"⟩
          (NewLogger 2 "app.log" sampleWorld).1).world.calls
        = [⟨.own ⟨.file 4 "app.log", "", 51⟩, 1, "Rotated log file"⟩] :=
  ⟨rfl, by decide, by decide, rfl,
   (rotate_success_swaps_handle 2 "app.log" sampleWorld
      ⟨2, ⟨.file 3 "app.log", "", 51⟩, .file 3 "app.log", "app.log"⟩ rfl (by decide)
      (NewLogger 2 "app.log" sampleWorld).1 (by decide) rfl).2.1,
   (rotate_success_swaps_handle 2 "app.log" sampleWorld
      ⟨2, ⟨.file 3 "app.log", "", 51⟩, .file 3 "app.log", "app.log"⟩ rfl (by decide)
      (NewLogger 2 "app.log" sampleWorld).1 (by decide) rfl).2.2.2.2.2.2.1⟩

theorem Sprint_rotate_error (e : String) :
    Sprint [.str "Could not rotate log file, error was:", .err e]
      = "Could not rotate log file, error was:" ++ e := by
  simp [Sprint, sprintLoop, Arg.format, Arg.isString]

/-- C9: on a logger built by `NewLogger` on a real path, when reopening the path
fails, `Rotate` returns normally (no panic, no error value), leaves the
destination handle, the formatting writer, the filename and the threshold as
they were, hands out no descriptor, and hands exactly one message,
"Could not rotate log file, error was:" followed by the error of the open, to
the existing formatting writer, whose output is the existing handle. -/
theorem rotate_failure_keeps_handle (logLevel : Int) (file : String) (wd0 : World)
    (l : logHandler) (hl : (NewLogger logLevel file wd0).2 = .ok l)
    (hfile : file ≠ "" ∧ file ≠ "stdout") (wd : World) (e : String)
    (hopen : wd.openErr file = some e) :
    (l.Rotate wd).ret = .ok () ∧
    (l.Rotate wd).self = l ∧
    (l.Rotate wd).self.GetLogWriter = l.GetLogWriter ∧
    (l.Rotate wd).self.w = l.w ∧
    (l.Rotate wd).self.filename = l.filename ∧
    (l.Rotate wd).self.LogLevel = l.LogLevel ∧
    (l.Rotate wd).world.nextFd = wd.nextFd ∧
    (l.Rotate wd).world.opens = wd.opens ++ [file] ∧
    (l.Rotate wd).world.calls
      = wd.calls ++ [⟨.own l.w, 1, "Could not rotate log file, error was:" ++ e⟩] ∧
    l.w.out = l.GetLogWriter := by
  obtain ⟨-, hname, hw, -⟩ := NewLogger_ok logLevel file wd0 l hl
  have hfile2 : l.filename ≠ "" ∧ l.filename ≠ "stdout" := by rw [hname]; exact hfile
  have hrot : l.Rotate wd
      = ⟨l.w.Output 1 ("Could not rotate log file, error was:" ++ e)
            { wd with opens := wd.opens ++ [file] }, l, .ok ()⟩ := by
    unfold logHandler.Rotate
    rw [if_pos hfile2, hname]
    simp only [newLog, if_pos hfile, OpenFile, hopen, logHandler.Output, Run.andThen,
      wrapInt_one, Sprint_rotate_error]
  rw [hrot]
  refine ⟨rfl, rfl, rfl, rfl, rfl, rfl, ?_, ?_, ?_, ?_⟩
  · exact (GoLogger_Output_calls _ _ _ _).2.2
  · exact (GoLogger_Output_calls _ _ _ _).2.1
  · exact (GoLogger_Output_calls _ _ _ _).1
  · rw [hw]; rfl

/-- Witness for C9: the logger built on "app.log" is rotated in a world where
"app.log" can no longer be opened. -/
theorem rotate_failure_keeps_handle_witness :
    (NewLogger 2 "app.log" sampleWorld).2
        = .ok ⟨2, ⟨.file 3 "app.log", "", 51⟩, .file 3 "app.log", "app.log"⟩ ∧
      ("app.log" ≠ "" ∧ "app.log" ≠ "stdout") ∧
      lockedWorld.openErr "app.log" = some "open app.log: permission denied" ∧
      (logHandler.Rotate ⟨2, ⟨.file 3 "app.log", "", 51⟩, .file 3 "app.log", "app.log"⟩
          lockedWorld).ret = .ok () ∧
      (logHandler.Rotate ⟨2, ⟨.file 3 "app.log", "", 51⟩, .file 3 "app.log", "app.log"⟩
          lockedWorld).world.calls
        = [⟨.own ⟨.file 3 "app.log", "", 51⟩, 1,
            "Could not rotate log file, error was:open app.log: permission denied"⟩] :=
  ⟨rfl, by decide, rfl,
   (rotate_failure_keeps_handle 2 "app.log" sampleWorld
      ⟨2, ⟨.file 3 "app.log", "", 51⟩, .file 3 "app.log", "app.log"⟩ rfl (by decide)
      lockedWorld "open app.log: permission denied" rfl).1,
   (rotate_failure_keeps_handle 2 "app.log" sampleWorld
      ⟨2, ⟨.file 3 "app.log", "", 51⟩, .file 3 "app.log", "app.log"⟩ rfl (by decide)
      lockedWorld "open app.log: permission denied" rfl).2.2.2.2.2.2.2.2.1.trans (by decide)⟩

/-- C10: on a logger built by `NewLogger` whose filename is empty or "stdout",
`Rotate` is a no-op: the world (open attempts, messages, files, standard
output) and the logger (threshold, handle, formatting writer, filename) are
unchanged and the call returns normally; the handle is standard output. -/
theorem rotate_on_stdout_is_noop (logLevel : Int) (file : String) (wd0 : World)
    (l : logHandler) (hl : (NewLogger logLevel file wd0).2 = .ok l)
    (hfile : file = "" ∨ file = "stdout") (wd : World) :
    l.Rotate wd = ⟨wd, l, .ok ()⟩ ∧
    (l.Rotate wd).world.opens = wd.opens ∧
    (l.Rotate wd).world.calls = wd.calls ∧
    (l.Rotate wd).self.LogLevel = l.LogLevel ∧
    (l.Rotate wd).self.GetLogWriter = l.GetLogWriter ∧
    (l.Rotate wd).self.w = l.w ∧
    (l.Rotate wd).self.filename = l.filename ∧
    l.GetLogWriter = .stdout := by
  obtain ⟨-, hname, -, hnl⟩ := NewLogger_ok logLevel file wd0 l hl
  have hnot : ¬ (file ≠ "" ∧ file ≠ "stdout") := by
    rcases hfile with h | h <;> simp [h]
  have hrot : l.Rotate wd = ⟨wd, l, .ok ()⟩ := by
    unfold logHandler.Rotate
    rw [hname, if_neg hnot]
  have hstd : l.f = .stdout := by
    have h2 : (newLog file wd0).2 = .ok l.f := hnl
    unfold newLog at h2
    rw [if_neg hnot] at h2
    injection h2 with h2
    exact h2.symm
  rw [hrot]
  exact ⟨rfl, rfl, rfl, rfl, rfl, rfl, rfl, hstd⟩

/-- Witness for C10: a logger built on "stdout" is rotated in a world where
nothing was opened or written. -/
theorem rotate_on_stdout_is_noop_witness :
    (NewLogger 3 "stdout" sampleWorld).2 = .ok ⟨3, ⟨.stdout, "", 51⟩, .stdout, "stdout"⟩ ∧
      (logHandler.Rotate ⟨3, ⟨.stdout, "", 51⟩, .stdout, "stdout"⟩ sampleWorld).world.opens = [] ∧
      (logHandler.Rotate ⟨3, ⟨.stdout, "", 51⟩, .stdout, "stdout"⟩ sampleWorld).world.calls = [] :=
  ⟨rfl,
   (rotate_on_stdout_is_noop 3 "stdout" sampleWorld ⟨3, ⟨.stdout, "", 51⟩, .stdout, "stdout"⟩
      rfl (Or.inr rfl) sampleWorld).2.1,
   (rotate_on_stdout_is_noop 3 "stdout" sampleWorld ⟨3, ⟨.stdout, "", 51⟩, .stdout, "stdout"⟩
      rfl (Or.inr rfl) sampleWorld).2.2.1⟩

/-! ## The filtering scenario of the test -/

theorem String_getLast_append_newline (a : String) :
    (a ++ "\n").data.getLast? = some '\n' := by
  simp [String.data_append]

theorem outputLine_Sprintln (hdr name msg : String) :
    outputLine hdr (Sprintln [.str name, .str msg]) = hdr ++ name ++ " " ++ msg ++ "\n" := by
  have h : Sprintln [.str name, .str msg] = (name ++ " " ++ msg) ++ "\n" := by
    simp [Sprintln, sprintlnLoop, Arg.format, String.append_assoc]
  rw [h, outputLine, if_pos (String_getLast_append_newline _)]
  simp [String.append_assoc]

theorem splitChars_length (sep : Char) (cs : List Char) :
    (splitChars sep cs).length = cs.count sep + 1 := by
  induction cs with
  | nil => rfl
  | cons c cs ih =>
    unfold splitChars
    by_cases h : c = sep
    · simp [h, ih]
    · have hc : (c :: cs).count sep = cs.count sep := List.count_cons_of_ne (Ne.symm h) cs
      rw [if_neg h, hc]
      cases hs : splitChars sep cs with
      | nil => rw [hs] at ih; simp at ih
      | cons p ps => rw [hs] at ih; simpa using ih

theorem Split_length (s : String) (sep : Char) :
    (Split s sep).length = s.data.count sep + 1 := by
  simp [Split, splitChars_length]

theorem scenario_message_literals :
    ("DEBUG2 TestD2\n".data.getLast? = some '\n' ∧ "DEBUG2 TestD2\n".data.count '\n' = 1) ∧
      ("DEBUG TestD\n".data.getLast? = some '\n' ∧ "DEBUG TestD\n".data.count '\n' = 1) ∧
      ("INFO TestI\n".data.getLast? = some '\n' ∧ "INFO TestI\n".data.count '\n' = 1) ∧
      ("WARNING TestW\n".data.getLast? = some '\n' ∧ "WARNING TestW\n".data.count '\n' = 1) ∧
      ("ERROR TestE\n".data.getLast? = some '\n' ∧ "ERROR TestE\n".data.count '\n' = 1) := by
  decide

set_option maxHeartbeats 2000000 in
/-- C3: for every threshold `t` in FATAL..DEBUG2, the test body
`NewLogger(t, file)` on a fresh empty file followed by `Debug2("TestD2")`,
`Debug("TestD")`, `Info("TestI")`, `Warning("TestW")`, `Error("TestE")` returns
normally and leaves in the file exactly one line per call whose level is at most
`t`, in call order, each made of the header, the level name, a space, the
message and a newline: `t` lines, so that splitting the content on newline gives
`t + 1` pieces, and the empty file for `t` = FATAL.  Headers, as the `log`
package writes them, hold no newline. -/
theorem five_calls_leave_threshold_lines (t : Int) (ht0 : LogFatal ≤ t) (ht5 : t ≤ LogDebug2)
    (file : String) (hfile : file ≠ "" ∧ file ≠ "stdout") (wd0 : World)
    (hopen : wd0.openErr file = none) (hfresh : wd0.disk file = some "")
    (hhdr : ∀ n d, (wd0.header n d).data.count '\n' = 0) :
    (filterScenario t file wd0).2
      = .ok ⟨t, GoLogger.New (.file wd0.nextFd file) "" logFlags, .file wd0.nextFd file, file⟩ ∧
    getLogs file (filterScenario t file wd0).1
      = expectedContent (fun n => wd0.header n 3) wd0.calls.length
          (expectedCalls.filter (fun c => decide (c.1 ≤ t))) ∧
    (filterScenario t file wd0).1.calls
      = wd0.calls ++ (expectedCalls.filter (fun c => decide (c.1 ≤ t))).map
          (fun c => ⟨.own (GoLogger.New (.file wd0.nextFd file) "" logFlags), 3,
            c.2.1 ++ " " ++ c.2.2 ++ "\n"⟩) ∧
    ((expectedCalls.filter (fun c => decide (c.1 ≤ t))).length : Int) = t ∧
    ((Split (getLogs file (filterScenario t file wd0).1) '\n').length : Int) = t + 1 ∧
    (t = LogFatal → getLogs file (filterScenario t file wd0).1 = "") := by
  simp only [LogFatal, LogDebug2] at ht0 ht5
  obtain ⟨⟨h1, c1⟩, ⟨h2, c2⟩, ⟨h3, c3⟩, ⟨h4, c4⟩, ⟨h5, c5⟩⟩ := scenario_message_literals
  have ht : t = 0 ∨ t = 1 ∨ t = 2 ∨ t = 3 ∨ t = 4 ∨ t = 5 := by omega
  rcases ht with ht | ht | ht | ht | ht | ht <;> subst ht <;>
    simp [filterScenario, NewLogger, newLog, hfile, OpenFile, hopen, hfresh, fiveCalls,
      logHandler.Debug2, logHandler.Debug, logHandler.Info, logHandler.Warning,
      logHandler.Error, logHandler.Log, Run.andThen, sliceIndex, levels, GoLogger.Output,
      Handle.Write, getLogs, GoLogger.New, LogFatal, LogError, LogWarning, LogInfo, LogDebug,
      LogDebug2, outputLine, expectedContent, expectedCalls, String.append_assoc,
      Split_length, List.count_append, hhdr, h1, h2, h3, h4, h5, c1, c2, c3, c4, c5,
      Sprintln, sprintlnLoop, Arg.format, Nat.add_assoc]

/-- Witness for C3: threshold WARNING on the fresh file "app.log" leaves the
WARNING line and the ERROR line, three pieces when split on newline. -/
theorem five_calls_leave_threshold_lines_witness :
    ("app.log" ≠ "" ∧ "app.log" ≠ "stdout") ∧
      freshWorld.openErr "app.log" = none ∧
      freshWorld.disk "app.log" = some "" ∧
      getLogs "app.log" (filterScenario 2 "app.log" freshWorld).1
        = "2024/01/01 10:00:00 main.go:10: WARNING TestW\n" ++
          "2024/01/01 10:00:00 main.go:10: ERROR TestE\n" ∧
      ((Split (getLogs "app.log" (filterScenario 2 "app.log" freshWorld).1) '\n').length : Int)
        = 2 + 1 :=
  ⟨by decide, rfl, rfl,
   (five_calls_leave_threshold_lines 2 (by decide) (by decide) "app.log" (by decide)
      freshWorld rfl rfl (fun _ _ => rfl)).2.1.trans (by decide),
   (five_calls_leave_threshold_lines 2 (by decide) (by decide) "app.log" (by decide)
      freshWorld rfl rfl (fun _ _ => rfl)).2.2.2.2.1⟩

theorem WrapLogger_level (logLevel : Int) :
    (WrapLogger logLevel).logLevel = max LogFatal (min LogDebug2 logLevel) :=
  clamp_eq logLevel

/-! ## Rotation of the wrapper -/

/-- C11, as stated, fails: a wrapper at threshold WARNING returns from `Rotate`
without having handed any line to the shared sink. -/
theorem wrapper_rotate_silent_below_info :
    ((WrapLogger LogWarning).Rotate sampleWorld).world.calls = [] ∧
      ((WrapLogger LogWarning).Rotate sampleWorld).ret = .ok () ∧
      ¬ ∃ c, ((WrapLogger LogWarning).Rotate sampleWorld).world.calls
          = sampleWorld.calls ++ [c] := by
  refine ⟨rfl, rfl, ?_⟩
  rintro ⟨c, hc⟩
  have h : ((WrapLogger LogWarning).Rotate sampleWorld).world.calls = [] := rfl
  rw [h] at hc
  cases hc

/-- C11, amended: on a logger built by `WrapLogger`, `Rotate` returns normally,
leaves the logger as it was and performs no resource operation (no open
attempt, no descriptor, files and standard output untouched); when the clamped
threshold is INFO, DEBUG or DEBUG2 it hands exactly one message,
"INFO Rotate called", to the shared sink at call depth 3, and when the
threshold is FATAL, ERROR or WARNING it hands nothing and leaves the world as it
was. -/
theorem wrapper_rotate_emits_info_when_admitted (logLevel : Int) (wd : World) :
    ((WrapLogger logLevel).Rotate wd).ret = .ok () ∧
    ((WrapLogger logLevel).Rotate wd).self = WrapLogger logLevel ∧
    ((WrapLogger logLevel).Rotate wd).world.opens = wd.opens ∧
    ((WrapLogger logLevel).Rotate wd).world.nextFd = wd.nextFd ∧
    ((WrapLogger logLevel).Rotate wd).world.disk = wd.disk ∧
    ((WrapLogger logLevel).Rotate wd).world.stdout = wd.stdout ∧
    (LogInfo ≤ logLevel →
      ((WrapLogger logLevel).Rotate wd).world.calls
        = wd.calls ++ [⟨.std, 3, "INFO Rotate called\n"⟩]) ∧
    (logLevel < LogInfo → ((WrapLogger logLevel).Rotate wd).world = wd) := by
  have hname : sliceIndex levels LogInfo = .ok "INFO" := rfl
  have hmsg : Sprintln [.str "INFO", .str "Rotate called"] = "INFO Rotate called\n" := by
    decide
  have hlev := WrapLogger_level logLevel
  by_cases h : LogInfo ≤ logLevel
  · have hadm : LogInfo ≤ (WrapLogger logLevel).logLevel := by
      rw [hlev]
      simp only [LogInfo, LogFatal, LogDebug2] at h ⊢
      omega
    have hrot : (WrapLogger logLevel).Rotate wd
        = ⟨stdOutput 3 "INFO Rotate called\n" wd, WrapLogger logLevel, .ok ()⟩ := by
      simp only [logWrapper.Rotate, logWrapper.Info, logWrapper.Log, if_pos hadm, hname, hmsg]
    rw [hrot]
    refine ⟨rfl, rfl, rfl, rfl, rfl, rfl, fun _ => rfl, ?_⟩
    intro hlt
    exact absurd h (not_le.mpr hlt)
  · have hadm : ¬ LogInfo ≤ (WrapLogger logLevel).logLevel := by
      rw [hlev]
      simp only [LogInfo, LogFatal, LogDebug2] at h ⊢
      omega
    have hrot : (WrapLogger logLevel).Rotate wd = ⟨wd, WrapLogger logLevel, .ok ()⟩ := by
      simp only [logWrapper.Rotate, logWrapper.Info, logWrapper.Log, if_neg hadm]
    rw [hrot]
    exact ⟨rfl, rfl, rfl, rfl, rfl, rfl, fun h2 => absurd h2 h, fun _ => rfl⟩

/-- Witness for C11 amended: at threshold DEBUG the wrapper hands the INFO line,
at threshold ERROR it leaves the world as it was. -/
theorem wrapper_rotate_emits_info_when_admitted_witness :
    ((WrapLogger 4).Rotate sampleWorld).world.calls = [⟨.std, 3, "INFO Rotate called\n"⟩] ∧
      ((WrapLogger 1).Rotate sampleWorld).world.calls = [] :=
  ⟨(wrapper_rotate_emits_info_when_admitted 4 sampleWorld).2.2.2.2.2.2.1 (by decide),
   congrArg World.calls
     ((wrapper_rotate_emits_info_when_admitted 1 sampleWorld).2.2.2.2.2.2.2 (by decide))⟩

theorem handler_Log_effect (l : logHandler) (r depth : Int) (args : List Arg) (wd : World) :
    (l.Log r depth args wd).self = l ∧
      (l.Log r depth args wd).world.calls
        = wd.calls ++ ((Op.log r depth args).handedAt l.logLevel).map
            (fun p => ⟨.own l.w, p.1, p.2⟩) := by
  unfold logHandler.Log Op.handedAt
  by_cases h : r ≤ l.logLevel
  · cases hn : sliceIndex levels r with
    | error e => simp [h, hn, Op.request]
    | ok name =>
      simp only [if_pos h, hn, Op.request, List.map_cons, List.map_nil, true_and]
      exact (GoLogger_Output_calls _ _ _ _).1
  · simp [h, Op.request]

theorem wrapper_Log_effect (l : logWrapper) (r depth : Int) (args : List Arg) (wd : World) :
    (l.Log r depth args wd).self = l ∧
      (l.Log r depth args wd).world.calls
        = wd.calls ++ ((Op.log r depth args).handedAt l.logLevel).map
            (fun p => ⟨.std, p.1, p.2⟩) := by
  unfold logWrapper.Log Op.handedAt
  by_cases h : r ≤ l.logLevel
  · cases hn : sliceIndex levels r with
    | error e => simp [h, hn, Op.request]
    | ok name => simp [h, hn, Op.request, stdOutput]
  · simp [h, Op.request]

theorem Log_ret_agree (l : logHandler) (lw : logWrapper) (hlev : l.logLevel = lw.logLevel)
    (r depth : Int) (args : List Arg) (wd wd2 : World) :
    (l.Log r depth args wd).ret = (lw.Log r depth args wd2).ret := by
  unfold logHandler.Log logWrapper.Log
  rw [hlev]
  by_cases h : r ≤ lw.logLevel
  · cases hn : sliceIndex levels r <;> simp [h, hn]
  · simp [h]

theorem handedAt_of_request (t : Int) (op : Op) (r depth : Int) (args : List Arg)
    (h : op.request = some (r, depth, args)) :
    op.handedAt t = (Op.log r depth args).handedAt t := by
  unfold Op.handedAt
  rw [h]
  rfl

theorem handler_apply_logcall (l : logHandler) (op : Op) (hop : op.isLogCall = true)
    (wd : World) :
    (l.apply op wd).self = l ∧
      (l.apply op wd).world.calls
        = wd.calls ++ (op.handedAt l.logLevel).map (fun p => ⟨.own l.w, p.1, p.2⟩) := by
  cases op with
  | log r depth args => exact handler_Log_effect l r depth args wd
  | fatal args =>
    have h := handler_Log_effect l LogFatal 3 args wd
    rw [handedAt_of_request l.logLevel (.fatal args) LogFatal 3 args rfl]
    simp only [logHandler.apply, logHandler.Fatal, Run.andThen]
    cases hr : (l.Log LogFatal 3 args wd).ret <;> simp [hr, h.1, h.2]
  | error args => exact handler_Log_effect l LogError 3 args wd
  | warning args => exact handler_Log_effect l LogWarning 3 args wd
  | info args => exact handler_Log_effect l LogInfo 3 args wd
  | debug args => exact handler_Log_effect l LogDebug 3 args wd
  | debug2 args => exact handler_Log_effect l LogDebug2 3 args wd
  | output calldepth s => simp [Op.isLogCall, Op.request] at hop
  | rotate => simp [Op.isLogCall, Op.request] at hop
  | levelQuery => simp [Op.isLogCall, Op.request] at hop
  | levelStringQuery => simp [Op.isLogCall, Op.request] at hop
  | writerQuery => simp [Op.isLogCall, Op.request] at hop

theorem wrapper_apply_logcall (l : logWrapper) (op : Op) (hop : op.isLogCall = true)
    (wd : World) :
    (l.apply op wd).self = l ∧
      (l.apply op wd).world.calls
        = wd.calls ++ (op.handedAt l.logLevel).map (fun p => ⟨.std, p.1, p.2⟩) := by
  cases op with
  | log r depth args => exact wrapper_Log_effect l r depth args wd
  | fatal args =>
    have h := wrapper_Log_effect l LogFatal 3 args wd
    rw [handedAt_of_request l.logLevel (.fatal args) LogFatal 3 args rfl]
    simp only [logWrapper.apply, logWrapper.Fatal, Run.andThen]
    cases hr : (l.Log LogFatal 3 args wd).ret <;> simp [hr, h.1, h.2]
  | error args => exact wrapper_Log_effect l LogError 3 args wd
  | warning args => exact wrapper_Log_effect l LogWarning 3 args wd
  | info args => exact wrapper_Log_effect l LogInfo 3 args wd
  | debug args => exact wrapper_Log_effect l LogDebug 3 args wd
  | debug2 args => exact wrapper_Log_effect l LogDebug2 3 args wd
  | output calldepth s => simp [Op.isLogCall, Op.request] at hop
  | rotate => simp [Op.isLogCall, Op.request] at hop
  | levelQuery => simp [Op.isLogCall, Op.request] at hop
  | levelStringQuery => simp [Op.isLogCall, Op.request] at hop
  | writerQuery => simp [Op.isLogCall, Op.request] at hop

theorem apply_ret_agree (l : logHandler) (lw : logWrapper) (hlev : l.logLevel = lw.logLevel)
    (op : Op) (hop : op.isLogCall = true) (wd wd2 : World) :
    (l.apply op wd).ret = (lw.apply op wd2).ret := by
  cases op with
  | log r depth args => exact Log_ret_agree l lw hlev r depth args wd wd2
  | fatal args =>
    have h := Log_ret_agree l lw hlev LogFatal 3 args wd wd2
    simp only [logHandler.apply, logWrapper.apply, logHandler.Fatal, logWrapper.Fatal,
      Run.andThen]
    rw [h]
    cases hr : (lw.Log LogFatal 3 args wd2).ret <;> simp [hr]
  | error args => exact Log_ret_agree l lw hlev LogError 3 args wd wd2
  | warning args => exact Log_ret_agree l lw hlev LogWarning 3 args wd wd2
  | info args => exact Log_ret_agree l lw hlev LogInfo 3 args wd wd2
  | debug args => exact Log_ret_agree l lw hlev LogDebug 3 args wd wd2
  | debug2 args => exact Log_ret_agree l lw hlev LogDebug2 3 args wd wd2
  | output calldepth s => simp [Op.isLogCall, Op.request] at hop
  | rotate => simp [Op.isLogCall, Op.request] at hop
  | levelQuery => simp [Op.isLogCall, Op.request] at hop
  | levelStringQuery => simp [Op.isLogCall, Op.request] at hop
  | writerQuery => simp [Op.isLogCall, Op.request] at hop

theorem handler_run_logcalls (ops : List Op) (hops : ∀ op ∈ ops, op.isLogCall = true)
    (l : logHandler) (wd : World) :
    (l.runOps wd ops).self = l ∧
      (l.runOps wd ops).world.calls
        = wd.calls ++ (handedBy l.logLevel ops).map (fun p => ⟨.own l.w, p.1, p.2⟩) := by
  induction ops generalizing wd with
  | nil => simp [logHandler.runOps, handedBy]
  | cons op ops ih =>
    obtain ⟨hs, hc⟩ := handler_apply_logcall l op (hops op (List.mem_cons_self _ _)) wd
    have ih2 := ih (fun o ho => hops o (List.mem_cons_of_mem _ ho)) (l.apply op wd).world
    simp only [logHandler.runOps, hs] at ih2 ⊢
    refine ⟨ih2.1, ?_⟩
    rw [ih2.2, hc]
    simp [handedBy, List.append_assoc]

theorem wrapper_run_logcalls (ops : List Op) (hops : ∀ op ∈ ops, op.isLogCall = true)
    (l : logWrapper) (wd : World) :
    (l.runOps wd ops).self = l ∧
      (l.runOps wd ops).world.calls
        = wd.calls ++ (handedBy l.logLevel ops).map (fun p => ⟨.std, p.1, p.2⟩) := by
  induction ops generalizing wd with
  | nil => simp [logWrapper.runOps, handedBy]
  | cons op ops ih =>
    obtain ⟨hs, hc⟩ := wrapper_apply_logcall l op (hops op (List.mem_cons_self _ _)) wd
    have ih2 := ih (fun o ho => hops o (List.mem_cons_of_mem _ ho)) (l.apply op wd).world
    simp only [logWrapper.runOps, hs] at ih2 ⊢
    refine ⟨ih2.1, ?_⟩
    rw [ih2.2, hc]
    simp [handedBy, List.append_assoc]

theorem run_results_agree (ops : List Op) (hops : ∀ op ∈ ops, op.isLogCall = true)
    (l : logHandler) (lw : logWrapper) (hlev : l.logLevel = lw.logLevel) (wd wd2 : World) :
    (l.runOps wd ops).results = (lw.runOps wd2 ops).results := by
  induction ops generalizing wd wd2 with
  | nil => rfl
  | cons op ops ih =>
    have hop := hops op (List.mem_cons_self _ _)
    have hs := (handler_apply_logcall l op hop wd).1
    have hs2 := (wrapper_apply_logcall lw op hop wd2).1
    have ih2 := ih (fun o ho => hops o (List.mem_cons_of_mem _ ho))
      (l.apply op wd).world (lw.apply op wd2).world
    simp only [logHandler.runOps, logWrapper.runOps, hs, hs2]
    rw [ih2, apply_ret_agree l lw hlev op hop wd wd2]

theorem handedSince_append (wd wd2 : World) (ps : List (Int × String)) (sink : Sink)
    (h : wd2.calls = wd.calls ++ ps.map (fun p => ⟨sink, p.1, p.2⟩)) :
    wd2.handedSince wd.calls.length = ps := by
  unfold World.handedSince
  rw [h, List.drop_left, List.map_map]
  have hid : ((fun c : OutputCall => (c.calldepth, c.s)) ∘
      fun p : Int × String => (⟨sink, p.1, p.2⟩ : OutputCall)) = id := by
    funext p
    rfl
  rw [hid, List.map_id]

/-! ## The two variants -/

/-- C12: for every integer threshold input and every sequence of `Log`, `Fatal`,
`Error`, `Warning`, `Info`, `Debug` and `Debug2` calls, the (call depth,
message) pairs the `WrapLogger` logger hands to the shared sink are those the
`NewLogger` logger hands to its own formatting writer, in the same order, and
every call ends the same way in both (returns, or the same panic). -/
theorem variants_filter_and_format_alike (logLevel : Int) (file : String) (wd0 : World)
    (l : logHandler) (hl : (NewLogger logLevel file wd0).2 = .ok l)
    (ops : List Op) (hops : ∀ op ∈ ops, op.isLogCall = true) (wdH wdW : World) :
    ((WrapLogger logLevel).runOps wdW ops).world.handedSince wdW.calls.length
      = (l.runOps wdH ops).world.handedSince wdH.calls.length ∧
    ((WrapLogger logLevel).runOps wdW ops).results = (l.runOps wdH ops).results ∧
    (l.runOps wdH ops).world.calls
      = wdH.calls ++ ((l.runOps wdH ops).world.handedSince wdH.calls.length).map
          (fun p => ⟨.own l.w, p.1, p.2⟩) ∧
    ((WrapLogger logLevel).runOps wdW ops).world.calls
      = wdW.calls ++
          (((WrapLogger logLevel).runOps wdW ops).world.handedSince wdW.calls.length).map
            (fun p => ⟨.std, p.1, p.2⟩) := by
  have hlev : l.logLevel = (WrapLogger logLevel).logLevel := by
    rw [(NewLogger_ok logLevel file wd0 l hl).1, WrapLogger_level]
  have hH := (handler_run_logcalls ops hops l wdH).2
  have hW := (wrapper_run_logcalls ops hops (WrapLogger logLevel) wdW).2
  have eH := handedSince_append wdH _ _ _ hH
  have eW := handedSince_append wdW _ _ _ hW
  refine ⟨?_, (run_results_agree ops hops l _ hlev wdH wdW).symm, ?_, ?_⟩
  · rw [eH, eW, hlev]
  · rw [eH]; exact hH
  · rw [eW]; exact hW

/-- Witness for C12: an admitted `Error`, a filtered `Debug`, a `Log` with a
level below FATAL and a `Fatal`, on loggers at threshold WARNING. -/
theorem variants_filter_and_format_alike_witness :
    (NewLogger 2 "app.log" sampleWorld).2
        = .ok ⟨2, ⟨.file 3 "app.log", "", 51⟩, .file 3 "app.log", "app.log"⟩ ∧
      ((WrapLogger 2).runOps sampleWorld
          [.error [.str "a"], .debug [.str "b"], .log (-1) 2 [], .fatal [.int 7]]).world.handedSince
            sampleWorld.calls.length
        = [(3, "ERROR a\n"), (3, "FATAL 7\n")] ∧
      ((WrapLogger 2).runOps sampleWorld
          [.error [.str "a"], .debug [.str "b"], .log (-1) 2 [], .fatal [.int 7]]).results
        = (logHandler.runOps ⟨2, ⟨.file 3 "app.log", "", 51⟩, .file 3 "app.log", "app.log"⟩
            sampleWorld
            [.error [.str "a"], .debug [.str "b"], .log (-1) 2 [], .fatal [.int 7]]).results :=
  ⟨rfl, by decide,
   (variants_filter_and_format_alike 2 "app.log" sampleWorld
      ⟨2, ⟨.file 3 "app.log", "", 51⟩, .file 3 "app.log", "app.log"⟩ rfl
      [.error [.str "a"], .debug [.str "b"], .log (-1) 2 [], .fatal [.int 7]]
      (by decide) sampleWorld sampleWorld).2.1⟩

theorem intercalate_go_eq (acc : String) (strs : List String) :
    String.intercalate.go acc " " strs = acc ++ sprintlnLoop false (strs.map .str) := by
  induction strs generalizing acc with
  | nil => simp [String.intercalate.go, sprintlnLoop]
  | cons a rest ih =>
    simp only [String.intercalate.go, List.map_cons, sprintlnLoop, Arg.format]
    rw [ih]
    simp [String.append_assoc]

theorem Sprintln_eq_specLine (name : String) (strs : List String) :
    Sprintln (.str name :: strs.map .str) = specLine name strs := by
  rw [Sprintln_cons_str, specLine, String.intercalate, intercalate_go_eq]

/-! ## Line format -/

/-- C13: for every admitted `Log(r, depth, a1..an)` with string arguments on a
logger built by `NewLogger`, the one message handed to the formatting writer is
the display name of level `r` and the arguments joined by single spaces in
their order and ended by one newline (the name and a newline when there are no
arguments), handed at the call depth given; and `Error`, `Warning`, `Info`,
`Debug`, `Debug2` are `Log` at their own level and depth 3, as is the write of
`Fatal`. -/
theorem admitted_message_is_name_and_args (logLevel : Int) (file : String) (wd0 : World)
    (l : logHandler) (hl : (NewLogger logLevel file wd0).2 = .ok l)
    (r depth : Int) (strs : List String) (wd : World)
    (hlo : LogFatal ≤ r) (hadm : r ≤ l.LogLevel) :
    (∃ name, GetLogLevelString r = .ok name ∧
      (l.Log r depth (strs.map .str) wd).world.calls
        = wd.calls ++ [⟨.own l.w, depth, specLine name strs⟩] ∧
      specLine name [] = name ++ "\n") ∧
    (∀ (args : List Arg) (wd2 : World),
      l.Error args wd2 = l.Log LogError 3 args wd2 ∧
      l.Warning args wd2 = l.Log LogWarning 3 args wd2 ∧
      l.Info args wd2 = l.Log LogInfo 3 args wd2 ∧
      l.Debug args wd2 = l.Log LogDebug 3 args wd2 ∧
      l.Debug2 args wd2 = l.Log LogDebug2 3 args wd2 ∧
      (l.Fatal args wd2).world = (l.Log LogFatal 3 args wd2).world ∧
      (l.Fatal args wd2).world.calls
        = wd2.calls ++ [⟨.own l.w, 3, Sprintln (.str "FATAL" :: args)⟩]) := by
  obtain ⟨hlev, -, -, -⟩ := NewLogger_ok logLevel file wd0 l hl
  have hadm2 : r ≤ l.logLevel := hadm
  have hhi : r ≤ LogDebug2 := by
    rw [hlev] at hadm2
    simp only [LogFatal, LogDebug2] at hadm2 ⊢
    omega
  obtain ⟨name, hname, -⟩ := sliceIndex_levels_ok r hlo hhi
  constructor
  · refine ⟨name, hname, ?_, ?_⟩
    · simp only [logHandler.Log, if_pos hadm2, hname]
      rw [Sprintln_eq_specLine]
      exact (GoLogger_Output_calls _ _ _ _).1
    · simp [specLine, String.intercalate, String.intercalate.go]
  · intro args wd2
    have h0 : LogFatal ≤ l.logLevel := by rw [hlev]; exact le_max_left _ _
    have hF : sliceIndex levels LogFatal = .ok "FATAL" := rfl
    refine ⟨rfl, rfl, rfl, rfl, rfl, ?_, ?_⟩
    · simp [logHandler.Fatal, logHandler.Log, h0, hF, Run.andThen]
    · simp only [logHandler.Fatal, logHandler.Log, if_pos h0, hF, Run.andThen]
      exact (GoLogger_Output_calls _ _ _ _).1

/-- Witness for C13: `Log(ERROR, 2, "disk", "full")` on a logger at threshold
WARNING hands "ERROR disk full" and a newline at depth 2. -/
theorem admitted_message_is_name_and_args_witness :
    (NewLogger 2 "app.log" sampleWorld).2
        = .ok ⟨2, ⟨.file 3 "app.log", "", 51⟩, .file 3 "app.log", "app.log"⟩ ∧
      (∃ name, GetLogLevelString 1 = .ok name ∧
        (logHandler.Log ⟨2, ⟨.file 3 "app.log", "", 51⟩, .file 3 "app.log", "app.log"⟩ 1 2
            (["disk", "full"].map .str) sampleWorld).world.calls
          = sampleWorld.calls ++
              [⟨.own ⟨.file 3 "app.log", "", 51⟩, 2, specLine name ["disk", "full"]⟩] ∧
        specLine name [] = name ++ "\n") ∧
      specLine "ERROR" ["disk", "full"] = "ERROR disk full\n" :=
  ⟨rfl,
   (admitted_message_is_name_and_args 2 "app.log" sampleWorld
      ⟨2, ⟨.file 3 "app.log", "", 51⟩, .file 3 "app.log", "app.log"⟩ rfl 1 2
      ["disk", "full"] sampleWorld (by decide) (by decide)).1,
   by decide⟩

theorem handler_apply_frame (l : logHandler) (op : Op) (wd : World) :
    (l.apply op wd).self.logLevel = l.logLevel ∧
      (l.apply op wd).self.filename = l.filename ∧
      (l.w = GoLogger.New l.f "" logFlags →
        (l.apply op wd).self.w = GoLogger.New (l.apply op wd).self.f "" logFlags) ∧
      ((l.apply op wd).self ≠ l →
        op = .rotate ∧ (l.filename ≠ "" ∧ l.filename ≠ "stdout") ∧
          wd.openErr l.filename = none) := by
  have hlog : ∀ (o : Op), o.isLogCall = true → (l.apply o wd).self = l :=
    fun o ho => (handler_apply_logcall l o ho wd).1
  have hsame : (l.apply op wd).self = l →
      (l.apply op wd).self.logLevel = l.logLevel ∧
      (l.apply op wd).self.filename = l.filename ∧
      (l.w = GoLogger.New l.f "" logFlags →
        (l.apply op wd).self.w = GoLogger.New (l.apply op wd).self.f "" logFlags) ∧
      ((l.apply op wd).self ≠ l →
        op = .rotate ∧ (l.filename ≠ "" ∧ l.filename ≠ "stdout") ∧
          wd.openErr l.filename = none) := by
    intro h
    rw [h]
    exact ⟨rfl, rfl, fun hw => hw, fun hne => absurd rfl hne⟩
  cases op with
  | log r depth args => exact hsame (hlog _ rfl)
  | fatal args => exact hsame (hlog _ rfl)
  | error args => exact hsame (hlog _ rfl)
  | warning args => exact hsame (hlog _ rfl)
  | info args => exact hsame (hlog _ rfl)
  | debug args => exact hsame (hlog _ rfl)
  | debug2 args => exact hsame (hlog _ rfl)
  | output calldepth s => exact hsame rfl
  | levelQuery => exact hsame rfl
  | levelStringQuery =>
    apply hsame
    simp only [logHandler.apply]
    cases l.LogLevelString <;> rfl
  | writerQuery => exact hsame rfl
  | rotate =>
    by_cases hf : l.filename ≠ "" ∧ l.filename ≠ "stdout"
    · rcases Option.eq_none_or_eq_some (wd.openErr l.filename) with ho | ⟨e, ho⟩
      · have hrot : (l.apply .rotate wd).self
            = ⟨l.logLevel, GoLogger.New (.file wd.nextFd l.filename) "" logFlags,
                .file wd.nextFd l.filename, l.filename⟩ := by
          simp only [logHandler.apply, logHandler.Rotate, if_pos hf, newLog, OpenFile, ho,
            logHandler.Output, Run.andThen]
        rw [hrot]
        exact ⟨rfl, rfl, fun _ => rfl, fun _ => ⟨rfl, hf, ho⟩⟩
      · apply hsame
        simp only [logHandler.apply, logHandler.Rotate, if_pos hf, newLog, OpenFile, ho,
          logHandler.Output, Run.andThen]
    · apply hsame
      simp only [logHandler.apply, logHandler.Rotate, if_neg hf]

theorem wrapper_apply_self (l : logWrapper) (op : Op) (wd : World) :
    (l.apply op wd).self = l := by
  cases op with
  | log r depth args => exact (wrapper_apply_logcall l (.log r depth args) rfl wd).1
  | fatal args => exact (wrapper_apply_logcall l (.fatal args) rfl wd).1
  | error args => exact (wrapper_apply_logcall l (.error args) rfl wd).1
  | warning args => exact (wrapper_apply_logcall l (.warning args) rfl wd).1
  | info args => exact (wrapper_apply_logcall l (.info args) rfl wd).1
  | debug args => exact (wrapper_apply_logcall l (.debug args) rfl wd).1
  | debug2 args => exact (wrapper_apply_logcall l (.debug2 args) rfl wd).1
  | output calldepth s => rfl
  | rotate => exact (wrapper_apply_logcall l (.info [.str "Rotate called"]) rfl wd).1
  | levelQuery => rfl
  | levelStringQuery =>
    simp only [logWrapper.apply]
    cases l.LogLevelString <;> rfl
  | writerQuery => rfl

theorem handler_afterOps_frame (steps : List (Op × World)) (l : logHandler)
    (hw : l.w = GoLogger.New l.f "" logFlags) :
    (l.afterOps steps).logLevel = l.logLevel ∧
      (l.afterOps steps).filename = l.filename ∧
      (l.afterOps steps).w = GoLogger.New (l.afterOps steps).f "" logFlags ∧
      ((∀ s ∈ steps, s.1 = Op.rotate →
          ¬ ((l.filename ≠ "" ∧ l.filename ≠ "stdout") ∧ s.2.openErr l.filename = none)) →
        l.afterOps steps = l) := by
  induction steps generalizing l with
  | nil => exact ⟨rfl, rfl, hw, fun _ => rfl⟩
  | cons s rest ih =>
    obtain ⟨op, wd⟩ := s
    obtain ⟨h1, h2, h3, h4⟩ := handler_apply_frame l op wd
    obtain ⟨i1, i2, i3, i4⟩ := ih (l.apply op wd).self (h3 hw)
    simp only [logHandler.afterOps]
    refine ⟨i1.trans h1, i2.trans h2, i3, ?_⟩
    intro hno
    have hself : (l.apply op wd).self = l := by
      by_contra hne
      obtain ⟨e1, e2, e3⟩ := h4 hne
      exact hno (op, wd) (List.mem_cons_self _ _) e1 ⟨e2, e3⟩
    rw [hself] at i4 ⊢
    exact i4 (fun s hs => hno s (List.mem_cons_of_mem _ hs))

theorem wrapper_afterOps_self (steps : List (Op × World)) (l : logWrapper) :
    l.afterOps steps = l := by
  induction steps generalizing l with
  | nil => rfl
  | cons s rest ih =>
    obtain ⟨op, wd⟩ := s
    simp only [logWrapper.afterOps]
    rw [wrapper_apply_self, ih]

theorem handler_runOps_frame (ops : List Op) (l : logHandler) (wd : World) :
    (l.runOps wd ops).self.logLevel = l.logLevel ∧
      (l.runOps wd ops).self.filename = l.filename := by
  induction ops generalizing l wd with
  | nil => exact ⟨rfl, rfl⟩
  | cons op ops ih =>
    obtain ⟨h1, h2, -, -⟩ := handler_apply_frame l op wd
    obtain ⟨i1, i2⟩ := ih (l.apply op wd).self (l.apply op wd).world
    simp only [logHandler.runOps]
    exact ⟨i1.trans h1, i2.trans h2⟩

theorem wrapper_runOps_self (ops : List Op) (l : logWrapper) (wd : World) :
    (l.runOps wd ops).self = l := by
  induction ops generalizing l wd with
  | nil => rfl
  | cons op ops ih =>
    simp only [logWrapper.runOps]
    rw [ih, wrapper_apply_self]

/-! ## Reachable states -/

/-- C14: for every logger built by `NewLogger` or `WrapLogger` and every finite
sequence of calls (`Log`, `Output`, `Rotate`, the six level methods, the
getters), each made in any world and whether or not earlier calls panicked, the
threshold stays the clamped value of construction (within FATAL..DEBUG2), the
filename stays the one given, the formatting writer stays bound to the
destination handle, and the logger is unchanged altogether unless some call of
the sequence was a `Rotate` on a real path whose reopening succeeded; the
wrapper never changes. -/
theorem reachable_state_invariant (logLevel : Int) (file : String) (wd0 : World)
    (l : logHandler) (hl : (NewLogger logLevel file wd0).2 = .ok l)
    (steps : List (Op × World)) (ops : List Op) (wd : World) :
    ((l.afterOps steps).LogLevel = max LogFatal (min LogDebug2 logLevel) ∧
      LogFatal ≤ (l.afterOps steps).LogLevel ∧ (l.afterOps steps).LogLevel ≤ LogDebug2 ∧
      (l.afterOps steps).filename = file ∧
      (l.afterOps steps).w = GoLogger.New (l.afterOps steps).GetLogWriter "" logFlags) ∧
    ((∀ s ∈ steps, s.1 = Op.rotate →
        ¬ ((file ≠ "" ∧ file ≠ "stdout") ∧ s.2.openErr file = none)) →
      (l.afterOps steps).GetLogWriter = l.GetLogWriter ∧ (l.afterOps steps).w = l.w) ∧
    ((l.runOps wd ops).self.LogLevel = max LogFatal (min LogDebug2 logLevel) ∧
      (l.runOps wd ops).self.filename = file) ∧
    ((WrapLogger logLevel).afterOps steps = WrapLogger logLevel ∧
      ((WrapLogger logLevel).afterOps steps).LogLevel = max LogFatal (min LogDebug2 logLevel) ∧
      ((WrapLogger logLevel).runOps wd ops).self = WrapLogger logLevel) := by
  obtain ⟨hlev, hname, hw, -⟩ := NewLogger_ok logLevel file wd0 l hl
  obtain ⟨a1, a2, a3, a4⟩ := handler_afterOps_frame steps l hw
  obtain ⟨r1, r2⟩ := handler_runOps_frame ops l wd
  have hclamp : (l.afterOps steps).LogLevel = max LogFatal (min LogDebug2 logLevel) :=
    a1.trans hlev
  refine ⟨⟨hclamp, ?_, ?_, a2.trans hname, a3⟩, ?_, ⟨r1.trans hlev, r2.trans hname⟩, ?_⟩
  · rw [hclamp]; exact le_max_left _ _
  · rw [hclamp]
    simp only [LogFatal, LogDebug2]
    omega
  · intro hno
    rw [hname] at a4
    rw [a4 hno]
    exact ⟨rfl, rfl⟩
  · rw [wrapper_afterOps_self]
    exact ⟨rfl, WrapLogger_level logLevel, wrapper_runOps_self ops _ wd⟩

/-- Witness for C14: a logger built at input 9 on "app.log" goes through a
`Debug`, a failed `Rotate`, a `Fatal` and a raw `Output`. -/
theorem reachable_state_invariant_witness :
    (NewLogger 9 "app.log" sampleWorld).2
        = .ok ⟨5, ⟨.file 3 "app.log", "", 51⟩, .file 3 "app.log", "app.log"⟩ ∧
      (logHandler.afterOps ⟨5, ⟨.file 3 "app.log", "", 51⟩, .file 3 "app.log", "app.log"⟩
          [(.debug [.str "x"], sampleWorld), (.rotate, lockedWorld), (.fatal [], sampleWorld),
            (.output 0 "raw", sampleWorld)]).GetLogWriter
        = logHandler.GetLogWriter
            ⟨5, ⟨.file 3 "app.log", "", 51⟩, .file 3 "app.log", "app.log"⟩ ∧
      (logHandler.afterOps ⟨5, ⟨.file 3 "app.log", "", 51⟩, .file 3 "app.log", "app.log"⟩
          [(.debug [.str "x"], sampleWorld), (.rotate, lockedWorld), (.fatal [], sampleWorld),
            (.output 0 "raw", sampleWorld)]).w
        = ⟨.file 3 "app.log", "", 51⟩ :=
  ⟨rfl,
   ((reachable_state_invariant 9 "app.log" sampleWorld
      ⟨5, ⟨.file 3 "app.log", "", 51⟩, .file 3 "app.log", "app.log"⟩ rfl
      [(.debug [.str "x"], sampleWorld), (.rotate, lockedWorld), (.fatal [], sampleWorld),
        (.output 0 "raw", sampleWorld)] [] sampleWorld).2.1
      (by
        intro s hs hrot
        simp only [List.mem_cons, List.mem_singleton, List.not_mem_nil, or_false] at hs
        rcases hs with h | h | h | h <;> subst h
        · cases hrot
        · intro hh
          exact absurd hh.2 (by decide)
        · cases hrot
        · cases hrot))⟩

/-! ## Construction failure -/

/-- C15: `NewLogger` on the empty token or "stdout" always returns a logger on
standard output and attempts no open (the world is unchanged); on every other
path it makes one open attempt and returns a logger bound to the opened file
exactly when the open succeeds, and when the open fails it panics with
"Cannot instantiate logger with file " and the path, returning no logger. -/
theorem new_logger_fails_fast (logLevel : Int) (file : String) (wd : World) :
    (file = "" ∨ file = "stdout" →
      NewLogger logLevel file wd
        = (wd, .ok ⟨max LogFatal (min LogDebug2 logLevel), GoLogger.New .stdout "" logFlags,
            .stdout, file⟩)) ∧
    (file ≠ "" ∧ file ≠ "stdout" →
      (NewLogger logLevel file wd).1.opens = wd.opens ++ [file] ∧
      ((∃ l, (NewLogger logLevel file wd).2 = .ok l) ↔ wd.openErr file = none) ∧
      (wd.openErr file = none →
        (NewLogger logLevel file wd).2
          = .ok ⟨max LogFatal (min LogDebug2 logLevel),
              GoLogger.New (.file wd.nextFd file) "" logFlags, .file wd.nextFd file, file⟩ ∧
        (NewLogger logLevel file wd).1.disk file = some ((wd.disk file).getD "")) ∧
      (∀ e, wd.openErr file = some e →
        (NewLogger logLevel file wd).2
          = .error (.panic ("Cannot instantiate logger with file " ++ file)) ∧
        ∀ l, (NewLogger logLevel file wd).2 ≠ .ok l)) := by
  have hc := clamp_eq logLevel
  constructor
  · intro hfile
    have hnot : ¬ (file ≠ "" ∧ file ≠ "stdout") := by
      rcases hfile with h | h <;> simp [h]
    simp only [NewLogger, newLog, if_neg hnot, hc]
  · intro hfile
    rcases Option.eq_none_or_eq_some (wd.openErr file) with ho | ⟨e, ho⟩
    · have hN : NewLogger logLevel file wd
          = ({ wd with
                opens := wd.opens ++ [file]
                nextFd := wd.nextFd + 1
                disk := fun p => if p = file then some ((wd.disk file).getD "") else wd.disk p },
              .ok ⟨max LogFatal (min LogDebug2 logLevel),
                GoLogger.New (.file wd.nextFd file) "" logFlags, .file wd.nextFd file, file⟩) := by
        simp only [NewLogger, newLog, if_pos hfile, OpenFile, ho, hc]
      rw [hN]
      refine ⟨rfl, ⟨fun _ => ho, fun _ => ⟨_, rfl⟩⟩, fun _ => ⟨rfl, by simp⟩, ?_⟩
      intro e he
      rw [ho] at he
      cases he
    · have hN : NewLogger logLevel file wd
          = ({ wd with opens := wd.opens ++ [file] },
              .error (.panic ("Cannot instantiate logger with file " ++ file))) := by
        simp only [NewLogger, newLog, if_pos hfile, OpenFile, ho]
      rw [hN]
      refine ⟨rfl, ⟨?_, ?_⟩, ?_, ?_⟩
      · rintro ⟨l, hl⟩
        cases hl
      · intro h
        rw [ho] at h
        cases h
      · intro h
        rw [ho] at h
        cases h
      · intro e2 _
        refine ⟨rfl, ?_⟩
        intro l hl
        cases hl

/-- Witness for C15: "stdout" in a world where nothing opens, "app.log" in a
world where it opens, and "app.log" in a world where it does not. -/
theorem new_logger_fails_fast_witness :
    (NewLogger 3 "stdout" lockedWorld).2 = .ok ⟨3, ⟨.stdout, "", 51⟩, .stdout, "stdout"⟩ ∧
      (NewLogger 3 "app.log" sampleWorld).2
        = .ok ⟨3, ⟨.file 3 "app.log", "", 51⟩, .file 3 "app.log", "app.log"⟩ ∧
      (NewLogger 3 "app.log" lockedWorld).2
        = .error (.panic "Cannot instantiate logger with file app.log") :=
  ⟨congrArg Prod.snd ((new_logger_fails_fast 3 "stdout" lockedWorld).1 (Or.inr rfl)),
   (((new_logger_fails_fast 3 "app.log" sampleWorld).2 (by decide)).2.2.1 rfl).1,
   (((new_logger_fails_fast 3 "app.log" lockedWorld).2 (by decide)).2.2.2
      "open app.log: permission denied" rfl).1⟩

/-! ## Display name of the threshold -/

/-- C17: for every logger built by `NewLogger` or `WrapLogger` from any integer
threshold input, `LogLevelString()` returns a name (it never faults), the same
as `GetLogLevelString(LogLevel())`, and `LogLevel()` lies within
FATAL..DEBUG2. -/
theorem log_level_string_never_faults (logLevel : Int) (file : String) (wd0 : World)
    (l : logHandler) (hl : (NewLogger logLevel file wd0).2 = .ok l) :
    (l.LogLevelString = GetLogLevelString l.LogLevel ∧
      (∃ name, l.LogLevelString = .ok name ∧ name ∈ levels) ∧
      LogFatal ≤ l.LogLevel ∧ l.LogLevel ≤ LogDebug2) ∧
    ((WrapLogger logLevel).LogLevelString = GetLogLevelString (WrapLogger logLevel).LogLevel ∧
      (∃ name, (WrapLogger logLevel).LogLevelString = .ok name ∧ name ∈ levels) ∧
      LogFatal ≤ (WrapLogger logLevel).LogLevel ∧ (WrapLogger logLevel).LogLevel ≤ LogDebug2) ∧
    GetLogLevelString (max LogFatal (min LogDebug2 logLevel)) = l.LogLevelString := by
  obtain ⟨hlev, -, -, -⟩ := NewLogger_ok logLevel file wd0 l hl
  have hwl := WrapLogger_level logLevel
  have hb : LogFatal ≤ max LogFatal (min LogDebug2 logLevel) ∧
      max LogFatal (min LogDebug2 logLevel) ≤ LogDebug2 := by
    simp only [LogFatal, LogDebug2]
    omega
  have h1 : LogFatal ≤ l.logLevel ∧ l.logLevel ≤ LogDebug2 := by rw [hlev]; exact hb
  have h2 : LogFatal ≤ (WrapLogger logLevel).logLevel ∧
      (WrapLogger logLevel).logLevel ≤ LogDebug2 := by rw [hwl]; exact hb
  refine ⟨⟨rfl, sliceIndex_levels_ok _ h1.1 h1.2, h1.1, h1.2⟩,
    ⟨rfl, sliceIndex_levels_ok _ h2.1 h2.2, h2.1, h2.2⟩, ?_⟩
  rw [← hlev]
  rfl

/-- Witness for C17: loggers built from the inputs 42 and -7 name DEBUG2 and
FATAL. -/
theorem log_level_string_never_faults_witness :
    (NewLogger 42 "" sampleWorld).2 = .ok ⟨5, ⟨.stdout, "", 51⟩, .stdout, ""⟩ ∧
      GetLogLevelString (max LogFatal (min LogDebug2 42))
        = logHandler.LogLevelString ⟨5, ⟨.stdout, "", 51⟩, .stdout, ""⟩ ∧
      logHandler.LogLevelString ⟨5, ⟨.stdout, "", 51⟩, .stdout, ""⟩ = .ok "DEBUG2" ∧
      (WrapLogger (-7)).LogLevelString = .ok "FATAL" :=
  ⟨rfl,
   (log_level_string_never_faults 42 "" sampleWorld ⟨5, ⟨.stdout, "", 51⟩, .stdout, ""⟩ rfl).2.2,
   rfl, rfl⟩

/-! ## Levels outside the six enumerators -/

/-- C18: on a logger of either variant, `Log` with a requested level above
DEBUG2 writes nothing and returns normally at every threshold, and `Log` with a
requested level below FATAL passes the admit check at every threshold and ends
in the index-out-of-range fault of the name table with nothing written. -/
theorem log_outside_levels (logLevel : Int) (file : String) (wd0 : World)
    (l : logHandler) (hl : (NewLogger logLevel file wd0).2 = .ok l)
    (r depth : Int) (args : List Arg) (wd : World) :
    (LogDebug2 < r →
      l.Log r depth args wd = ⟨wd, l, .ok ()⟩ ∧
      (WrapLogger logLevel).Log r depth args wd = ⟨wd, WrapLogger logLevel, .ok ()⟩) ∧
    (r < LogFatal →
      (r ≤ l.LogLevel ∧ r ≤ (WrapLogger logLevel).LogLevel) ∧
      l.Log r depth args wd = ⟨wd, l, .error (.indexOutOfRange r levels.length)⟩ ∧
      (WrapLogger logLevel).Log r depth args wd
        = ⟨wd, WrapLogger logLevel, .error (.indexOutOfRange r levels.length)⟩) := by
  obtain ⟨hlev, -, -, -⟩ := NewLogger_ok logLevel file wd0 l hl
  have hwl := WrapLogger_level logLevel
  have hb : LogFatal ≤ max LogFatal (min LogDebug2 logLevel) ∧
      max LogFatal (min LogDebug2 logLevel) ≤ LogDebug2 := by
    simp only [LogFatal, LogDebug2]
    omega
  rw [← hlev] at hb
  have hbw : LogFatal ≤ (WrapLogger logLevel).logLevel ∧
      (WrapLogger logLevel).logLevel ≤ LogDebug2 := by rw [hwl, ← hlev]; exact hb
  constructor
  · intro hr
    have h1 : ¬ r ≤ l.logLevel := not_le.mpr (lt_of_le_of_lt hb.2 hr)
    have h2 : ¬ r ≤ (WrapLogger logLevel).logLevel := not_le.mpr (lt_of_le_of_lt hbw.2 hr)
    exact ⟨by simp only [logHandler.Log, if_neg h1], by simp only [logWrapper.Log, if_neg h2]⟩
  · intro hr
    have h1 : r ≤ l.logLevel := le_of_lt (lt_of_lt_of_le hr hb.1)
    have h2 : r ≤ (WrapLogger logLevel).logLevel := le_of_lt (lt_of_lt_of_le hr hbw.1)
    have herr : sliceIndex levels r = .error (.indexOutOfRange r levels.length) :=
      sliceIndex_levels_error r (Or.inl hr)
    exact ⟨⟨h1, h2⟩, by simp only [logHandler.Log, if_pos h1, herr],
      by simp only [logWrapper.Log, if_pos h2, herr]⟩

/-- Witness for C18: level 6 on a logger at threshold DEBUG2 and level -1 on a
logger at threshold FATAL. -/
theorem log_outside_levels_witness :
    (NewLogger 5 "" sampleWorld).2 = .ok ⟨5, ⟨.stdout, "", 51⟩, .stdout, ""⟩ ∧
      (logHandler.Log ⟨5, ⟨.stdout, "", 51⟩, .stdout, ""⟩ 6 3 [.str "x"] sampleWorld).ret
        = .ok () ∧
      (NewLogger 0 "" sampleWorld).2 = .ok ⟨0, ⟨.stdout, "", 51⟩, .stdout, ""⟩ ∧
      (logHandler.Log ⟨0, ⟨.stdout, "", 51⟩, .stdout, ""⟩ (-1) 3 [.str "x"] sampleWorld).ret
        = .error (.indexOutOfRange (-1) 6) :=
  ⟨rfl,
   congrArg Run.ret ((log_outside_levels 5 "" sampleWorld ⟨5, ⟨.stdout, "", 51⟩, .stdout, ""⟩
      rfl 6 3 [.str "x"] sampleWorld).1 (by decide)).1,
   rfl,
   congrArg Run.ret ((log_outside_levels 0 "" sampleWorld ⟨0, ⟨.stdout, "", 51⟩, .stdout, ""⟩
      rfl (-1) 3 [.str "x"] sampleWorld).2 (by decide)).2.1⟩

theorem isLogCall_of_isLeveled (op : Op) (h : op.isLeveled = true) : op.isLogCall = true := by
  unfold Op.isLeveled at h
  unfold Op.isLogCall
  cases hq : op.request with
  | none => rw [hq] at h; cases h
  | some q => rfl

theorem handedAt_sublist (t t2 : Int) (htt : t ≤ t2) (op : Op) :
    (op.handedAt t).Sublist (op.handedAt t2) := by
  unfold Op.handedAt
  cases hq : op.request with
  | none => exact List.Sublist.refl _
  | some q =>
    obtain ⟨r, depth, args⟩ := q
    by_cases h : r ≤ t
    · have h2 : r ≤ t2 := le_trans h htt
      simp only [if_pos h, if_pos h2]
      exact List.Sublist.refl _
    · simp only [if_neg h]
      exact List.nil_sublist _

theorem handedBy_sublist (t t2 : Int) (htt : t ≤ t2) (ops : List Op) :
    (handedBy t ops).Sublist (handedBy t2 ops) := by
  induction ops with
  | nil => exact List.Sublist.refl _
  | cons op ops ih => exact List.Sublist.append (handedAt_sublist t t2 htt op) ih

theorem handedAt_leveled (t : Int) (op : Op) (h : op.isLeveled = true) :
    (∀ r, op.level = some r → r ≤ t → (op.handedAt t).length = 1) ∧
      (∀ r, op.level = some r → t < r → op.handedAt t = []) ∧
      ∃ r, op.level = some r ∧ LogFatal ≤ r ∧ r ≤ LogDebug2 := by
  unfold Op.isLeveled at h
  unfold Op.handedAt Op.level
  cases hq : op.request with
  | none => rw [hq] at h; cases h
  | some q =>
    obtain ⟨r, depth, args⟩ := q
    rw [hq] at h
    have hb : LogFatal ≤ r ∧ r ≤ LogDebug2 := of_decide_eq_true h
    obtain ⟨name, hname, -⟩ := sliceIndex_levels_ok r hb.1 hb.2
    refine ⟨?_, ?_, ⟨r, rfl, hb⟩⟩
    · intro r2 hr2 hle
      simp only [Option.map_some', Option.some.injEq] at hr2
      subst hr2
      simp [hle, hname]
    · intro r2 hr2 hlt
      simp only [Option.map_some', Option.some.injEq] at hr2
      subst hr2
      simp [not_le.mpr hlt]

theorem handedBy_debug2_length (ops : List Op) (hops : ∀ op ∈ ops, op.isLeveled = true) :
    (handedBy LogDebug2 ops).length = ops.length := by
  induction ops with
  | nil => rfl
  | cons op ops ih =>
    obtain ⟨h1, -, ⟨r, hr, -, hr5⟩⟩ :=
      handedAt_leveled LogDebug2 op (hops op (List.mem_cons_self _ _))
    simp only [handedBy, List.length_append, List.length_cons,
      ih (fun o ho => hops o (List.mem_cons_of_mem _ ho)), h1 r hr hr5]
    omega

theorem handedBy_fatal_filter (ops : List Op) (hops : ∀ op ∈ ops, op.isLeveled = true) :
    handedBy LogFatal ops
        = handedBy LogFatal (ops.filter fun op => decide (op.level = some LogFatal)) ∧
      (handedBy LogFatal ops).length
        = (ops.filter fun op => decide (op.level = some LogFatal)).length := by
  induction ops with
  | nil => exact ⟨rfl, rfl⟩
  | cons op ops ih =>
    obtain ⟨i1, i2⟩ := ih (fun o ho => hops o (List.mem_cons_of_mem _ ho))
    obtain ⟨h1, h2, ⟨r, hr, hr0, -⟩⟩ :=
      handedAt_leveled LogFatal op (hops op (List.mem_cons_self _ _))
    by_cases hf : op.level = some LogFatal
    · have hlen : (op.handedAt LogFatal).length = 1 := h1 LogFatal hf (le_refl _)
      simp only [handedBy, List.filter_cons, hf, decide_True, if_true, List.length_append,
        List.length_cons, hlen, i2]
      refine ⟨?_, by omega⟩
      rw [← i1]
    · have hne : r ≠ LogFatal := by
        intro h
        rw [h] at hr
        exact hf hr
      have hlt : LogFatal < r := lt_of_le_of_ne hr0 (Ne.symm hne)
      have hnil : op.handedAt LogFatal = [] := h2 r hr hlt
      simp only [handedBy, List.filter_cons, hf, decide_False, hnil, List.nil_append]
      exact ⟨i1, i2⟩

/-! ## Monotone filtering -/

/-- C19: for thresholds `t <= t2` within FATAL..DEBUG2 and every sequence of
logging calls with levels in FATAL..DEBUG2, what a logger at threshold `t`
hands to its sink is a subsequence, in the same order, of what a logger at
threshold `t2` hands to its sink for the same calls, for `NewLogger` loggers and
for `WrapLogger` loggers; at DEBUG2 every call is written and at FATAL only the
calls at level FATAL are. -/
theorem filtering_monotone_in_threshold (t t2 : Int) (ht0 : LogFatal ≤ t) (htt : t ≤ t2)
    (ht5 : t2 ≤ LogDebug2) (file file2 : String) (wd0 wd02 : World) (l l2 : logHandler)
    (hl : (NewLogger t file wd0).2 = .ok l) (hl2 : (NewLogger t2 file2 wd02).2 = .ok l2)
    (ops : List Op) (hops : ∀ op ∈ ops, op.isLeveled = true) (wd wd2 : World) :
    ((l.runOps wd ops).world.handedSince wd.calls.length).Sublist
        ((l2.runOps wd2 ops).world.handedSince wd2.calls.length) ∧
    (((WrapLogger t).runOps wd ops).world.handedSince wd.calls.length).Sublist
        (((WrapLogger t2).runOps wd2 ops).world.handedSince wd2.calls.length) ∧
    (l.runOps wd ops).world.handedSince wd.calls.length = handedBy t ops ∧
    ((WrapLogger t).runOps wd ops).world.handedSince wd.calls.length = handedBy t ops ∧
    (t2 = LogDebug2 →
      ((l2.runOps wd2 ops).world.handedSince wd2.calls.length).length = ops.length ∧
      (((WrapLogger t2).runOps wd2 ops).world.handedSince wd2.calls.length).length
        = ops.length) ∧
    (t = LogFatal →
      (l.runOps wd ops).world.handedSince wd.calls.length
        = handedBy LogFatal (ops.filter fun op => decide (op.level = some LogFatal)) ∧
      ((l.runOps wd ops).world.handedSince wd.calls.length).length
        = (ops.filter fun op => decide (op.level = some LogFatal)).length ∧
      (((WrapLogger t).runOps wd ops).world.handedSince wd.calls.length).length
        = (ops.filter fun op => decide (op.level = some LogFatal)).length) := by
  have hlog : ∀ op ∈ ops, op.isLogCall = true :=
    fun op ho => isLogCall_of_isLeveled op (hops op ho)
  have hclamp : ∀ x : Int, LogFatal ≤ x → x ≤ LogDebug2 →
      max LogFatal (min LogDebug2 x) = x := by
    intro x h0 h5
    simp only [LogFatal, LogDebug2] at *
    omega
  have hlev : l.logLevel = t := by
    rw [(NewLogger_ok t file wd0 l hl).1]
    exact hclamp t ht0 (le_trans htt ht5)
  have hlev2 : l2.logLevel = t2 := by
    rw [(NewLogger_ok t2 file2 wd02 l2 hl2).1]
    exact hclamp t2 (le_trans ht0 htt) ht5
  have hwl : (WrapLogger t).logLevel = t := by
    rw [WrapLogger_level]
    exact hclamp t ht0 (le_trans htt ht5)
  have hwl2 : (WrapLogger t2).logLevel = t2 := by
    rw [WrapLogger_level]
    exact hclamp t2 (le_trans ht0 htt) ht5
  have e1 : (l.runOps wd ops).world.handedSince wd.calls.length = handedBy t ops := by
    rw [← hlev]
    exact handedSince_append wd _ _ _ (handler_run_logcalls ops hlog l wd).2
  have e2 : (l2.runOps wd2 ops).world.handedSince wd2.calls.length = handedBy t2 ops := by
    rw [← hlev2]
    exact handedSince_append wd2 _ _ _ (handler_run_logcalls ops hlog l2 wd2).2
  have e3 : ((WrapLogger t).runOps wd ops).world.handedSince wd.calls.length
      = handedBy t ops := by
    have h := handedSince_append wd _ _ _ (wrapper_run_logcalls ops hlog (WrapLogger t) wd).2
    rw [hwl] at h
    exact h
  have e4 : ((WrapLogger t2).runOps wd2 ops).world.handedSince wd2.calls.length
      = handedBy t2 ops := by
    have h := handedSince_append wd2 _ _ _
      (wrapper_run_logcalls ops hlog (WrapLogger t2) wd2).2
    rw [hwl2] at h
    exact h
  rw [e1, e2, e3, e4]
  refine ⟨handedBy_sublist t t2 htt ops, handedBy_sublist t t2 htt ops, rfl, rfl, ?_, ?_⟩
  · intro h5
    rw [h5]
    exact ⟨handedBy_debug2_length ops hops, handedBy_debug2_length ops hops⟩
  · intro h0
    rw [h0]
    exact ⟨(handedBy_fatal_filter ops hops).1, (handedBy_fatal_filter ops hops).2,
      (handedBy_fatal_filter ops hops).2⟩

/-- Witness for C19: thresholds ERROR and INFO on the calls `Info`, `Error`,
`Log(WARNING, 2)` and `Fatal`. -/
theorem filtering_monotone_in_threshold_witness :
    (NewLogger 1 "" sampleWorld).2 = .ok ⟨1, ⟨.stdout, "", 51⟩, .stdout, ""⟩ ∧
      (NewLogger 3 "" sampleWorld).2 = .ok ⟨3, ⟨.stdout, "", 51⟩, .stdout, ""⟩ ∧
      ((logHandler.runOps ⟨1, ⟨.stdout, "", 51⟩, .stdout, ""⟩ sampleWorld
          [.info [.str "a"], .error [.str "b"], .log 2 2 [.str "c"], .fatal [.str "d"]]
        ).world.handedSince sampleWorld.calls.length).Sublist
        ((logHandler.runOps ⟨3, ⟨.stdout, "", 51⟩, .stdout, ""⟩ sampleWorld
          [.info [.str "a"], .error [.str "b"], .log 2 2 [.str "c"], .fatal [.str "d"]]
        ).world.handedSince sampleWorld.calls.length) ∧
      (logHandler.runOps ⟨1, ⟨.stdout, "", 51⟩, .stdout, ""⟩ sampleWorld
          [.info [.str "a"], .error [.str "b"], .log 2 2 [.str "c"], .fatal [.str "d"]]
        ).world.handedSince sampleWorld.calls.length
        = [(3, "ERROR b\n"), (3, "FATAL d\n")] ∧
      (logHandler.runOps ⟨3, ⟨.stdout, "", 51⟩, .stdout, ""⟩ sampleWorld
          [.info [.str "a"], .error [.str "b"], .log 2 2 [.str "c"], .fatal [.str "d"]]
        ).world.handedSince sampleWorld.calls.length
        = [(3, "INFO a\n"), (3, "ERROR b\n"), (2, "WARNING c\n"), (3, "FATAL d\n")] :=
  ⟨rfl, rfl,
   (filtering_monotone_in_threshold 1 3 (by decide) (by decide) (by decide) "" ""
      sampleWorld sampleWorld ⟨1, ⟨.stdout, "", 51⟩, .stdout, ""⟩
      ⟨3, ⟨.stdout, "", 51⟩, .stdout, ""⟩ rfl rfl
      [.info [.str "a"], .error [.str "b"], .log 2 2 [.str "c"], .fatal [.str "d"]]
      (by decide) sampleWorld sampleWorld).1,
   by decide, by decide⟩

end Logger
